import Mathlib

set_option maxHeartbeats 1000000

/-!
# Verification of the API-Grabber capture-and-reconstruction pipeline

Shallow embedding of the parts of `src/recorder/DataOptimizer.ts` and
`src/recorder/RecorderEngine.ts` that the stated properties concern.
TypeScript strings become `String`, JS `number` timestamps become `Int`
(all timestamp arithmetic in the source is integer-valued millisecond
arithmetic), optional fields become `Option`, JS `Map` becomes an
association list preserving insertion order, and JS float arithmetic for
the compression ratio is modelled by an explicit IEEE-style value type
with NaN and infinities.
-/

namespace APIGrabber

/-! ## Models of the JavaScript string primitives used by the source -/

/-- Is `p` a prefix of `t` (character-wise)? Helper for substring search. -/
def listIsPre : List Char → List Char → Bool
  | [], _ => true
  | _ :: _, [] => false
  | p :: ps, t :: ts => p == t && listIsPre ps ts

/-- Does `t` contain `p` as a contiguous substring? -/
def listContainsSub : List Char → List Char → Bool
  | [], p => p.isEmpty
  | t :: ts, p => listIsPre p (t :: ts) || listContainsSub ts p

/-- Model of JS `String.prototype.includes`. -/
def strContains (s pat : String) : Bool := listContainsSub s.data pat.data

/-- Model of JS `String.prototype.toLowerCase` (ASCII range, which is all
the source's keyword sets use). -/
def lowerStr (s : String) : String := String.mk (s.data.map Char.toLower)

/-- JS truthiness of a `string | undefined` value: `undefined` and the
empty string are falsy. -/
def jsTruthy : Option String → Bool
  | none => false
  | some s => !(s == "")

/-- Model of the JS `||` operator on `string | undefined` values. -/
def jsOrOpt (a b : Option String) : Option String := if jsTruthy a then a else b

/-- Model of JS template-literal interpolation of a `string | undefined`
value: `undefined` renders as the string "undefined". -/
def tplInterp : Option String → String
  | none => "undefined"
  | some s => s

/-- Model of `o?.includes(pat)` in boolean position (undefined is falsy). -/
def optIncludes (o : Option String) (pat : String) : Bool :=
  match o with
  | none => false
  | some s => strContains s pat

/-- Model of `o?.toLowerCase().includes(pat)` in boolean position. -/
def optLowerIncludes (o : Option String) (pat : String) : Bool :=
  match o with
  | none => false
  | some s => strContains (lowerStr s) pat

/-! ## Data model (from `src/types/index.ts` and `DataOptimizer.ts`)

Only the fields read by the modelled functions are carried; the unread
presentation fields of the TS interfaces (coordinates, bounding geometry,
computed styles, ancestor tags, frame-membership, event details) are
omitted from the embedding. -/

/-- The element snapshot attached to a recorded action
(`RecordedAction.element` in `src/types/index.ts`). -/
structure ElementInfo where
  tag : String := ""
  text : Option String := none
  value : Option String := none
  placeholder : Option String := none
  type : Option String := none
  className : Option String := none
  name : Option String := none
  role : Option String := none
  innerHTML : Option String := none
  attributes : Option (List (String × String)) := none
deriving DecidableEq, Repr

/-- One recorded interaction (`RecordedAction` in `src/types/index.ts`).
`isAmountInput` is an optional boolean in TS used only in truthy
position, so it is carried as `Bool` with `false` for absent. -/
structure RecordedAction where
  id : String := ""
  type : String
  timestamp : Int
  selector : Option String := none
  xpath : Option String := none
  value : Option String := none
  url : Option String := none
  element : Option ElementInfo := none
  walletMethod : Option String := none
  isSwapAction : Bool := false
  isAmountInput : Bool := false
deriving DecidableEq, Repr

/-- Response part of a captured network request. -/
structure NetworkResponse where
  status : Int
  headers : Option (List (String × String)) := none
deriving DecidableEq, Repr

/-- A retained network request (`NetworkRequest` in `src/types/index.ts`). -/
structure NetworkRequest where
  id : String := ""
  timestamp : Int := 0
  url : String
  method : String
  headers : Option (List (String × String)) := none
  response : Option NetworkResponse := none
deriving DecidableEq, Repr

/-- The frozen aggregate produced at session stop (`Recording`). -/
structure Recording where
  id : String := ""
  name : String := ""
  url : String := ""
  duration : Int := 0
  actions : List RecordedAction
  networkRequests : List NetworkRequest := []
deriving DecidableEq, Repr

/-! ## Pass 1 — deduplication (`DataOptimizer.removeDuplicates`) -/

/-- `this.duplicateThreshold = 1000` (milliseconds). -/
def duplicateThreshold : Int := 1000

/-- `DataOptimizer.generateActionKey`: the key is
`type + "_" + (selector || url || value)` under JS `||` and template
interpolation semantics. -/
def generateActionKey (a : RecordedAction) : String :=
  a.type ++ "_" ++ tplInterp (jsOrOpt a.selector (jsOrOpt a.url a.value))

/-- `Map.get` on the association-list model of the JS `Map`. -/
def mapLookup (m : List (String × RecordedAction)) (k : String) :
    Option RecordedAction :=
  match m with
  | [] => none
  | (k2, v) :: rest => if k2 == k then some v else mapLookup rest k

/-- `Map.set` on the association-list model: replace in place, else append. -/
def mapSet (m : List (String × RecordedAction)) (k : String)
    (v : RecordedAction) : List (String × RecordedAction) :=
  match m with
  | [] => [(k, v)]
  | (k2, v2) :: rest =>
    if k2 == k then (k2, v) :: rest else (k2, v2) :: mapSet rest k v

/-- The loop of `DataOptimizer.removeDuplicates`: an action is kept when
its key has no map entry yet or the entry is more than
`duplicateThreshold` milliseconds older; a kept action becomes the map
entry for its key; a dropped action increments `duplicatesRemoved`. -/
def removeDupsAux : List RecordedAction → List (String × RecordedAction) →
    List RecordedAction × Nat
  | [], _ => ([], 0)
  | a :: rest, m =>
    let k := generateActionKey a
    match mapLookup m k with
    | some ex =>
      if a.timestamp - ex.timestamp > duplicateThreshold then
        let r := removeDupsAux rest (mapSet m k a)
        (a :: r.1, r.2)
      else
        let r := removeDupsAux rest m
        (r.1, r.2 + 1)
    | none =>
      let r := removeDupsAux rest (mapSet m k a)
      (a :: r.1, r.2)

/-- `DataOptimizer.removeDuplicates`: returns the kept actions and the
`duplicatesRemoved` counter. -/
def removeDuplicates (actions : List RecordedAction) :
    List RecordedAction × Nat :=
  removeDupsAux actions []

/-- The deduplication predicate exactly as the specification words it:
a record is dropped when some previously KEPT record with the same key
lies within 1000 ms BEFORE it (claim C3's reading). Written from the
spec sentence, to be compared against `removeDuplicates`. -/
def dedupClaimAux : List RecordedAction → List RecordedAction →
    List RecordedAction
  | [], _ => []
  | a :: rest, kept =>
    if kept.any (fun b =>
        generateActionKey b == generateActionKey a &&
        decide (b.timestamp ≤ a.timestamp) &&
        decide (a.timestamp - b.timestamp ≤ duplicateThreshold)) then
      dedupClaimAux rest kept
    else
      a :: dedupClaimAux rest (kept ++ [a])

/-- Spec-side deduplication, started with no kept records. -/
def dedupClaim (actions : List RecordedAction) : List RecordedAction :=
  dedupClaimAux actions []

/-! ## Pass 2 — swap-flow reconstruction (`DataOptimizer.extractEnhancedSwapFlow`) -/

/-- The closed variant of swap-flow step kinds (`SwapAction.action`). -/
inductive SwapKind where
  | SELECT_FROM
  | SELECT_TO
  | INPUT_AMOUNT
  | CLICK_SWAP
  | APPROVE
  | CONFIRM
deriving DecidableEq, Repr

/-- `SwapAction.metadata` in `DataOptimizer.ts`. -/
structure SwapMetadata where
  tokenAddress : Option String := none
  tokenSymbol : Option String := none
  amount : Option String := none
  price : Option String := none
  slippage : Option String := none
deriving DecidableEq, Repr

/-- One step of the reconstructed swap flow (`SwapAction`). -/
structure SwapAction where
  id : Nat
  action : SwapKind
  value : Option String := none
  selector : Option String := none
  timestamp : Option Int := none
  metadata : Option SwapMetadata := none
deriving DecidableEq, Repr

/-- Model of `a.element?.text?.toLowerCase() || ''`. -/
def textLowerOrEmpty (a : RecordedAction) : String :=
  match a.element.bind (fun e => e.text) with
  | none => ""
  | some t => lowerStr t

/-- Model of `action.value || '0'` (JS `||` on a possibly-undefined,
possibly-empty string). -/
def jsOrDefault (o : Option String) (d : String) : String :=
  if jsTruthy o then o.getD d else d

/-- `DataOptimizer.isEnhancedTokenSelection`. -/
def isEnhancedTokenSelection (a : RecordedAction) (text : String) : Bool :=
  a.type == "click" &&
  (strContains text "select token" ||
   strContains text "choose token" ||
   strContains text "token" ||
   optIncludes (a.element.bind (fun e => e.className)) "token-select" ||
   optIncludes (a.element.bind (fun e => e.className)) "token-button" ||
   a.element.bind (fun e => e.role) == some "token-selector" ||
   strContains (jsOrDefault (a.element.bind (fun e => e.innerHTML)) "")
     "token-symbol" ||
   strContains (jsOrDefault (a.element.bind (fun e => e.innerHTML)) "")
     "token-address")

/-- The alternation list of the token-symbol regular expression in
`DataOptimizer.extractEnhancedTokenInfo`, in source order. -/
def tokenSymbols : List String :=
  ["ETH", "BTC", "USDT", "USDC", "DAI", "WETH", "BNB", "MATIC", "SOL",
   "ADA", "DOT", "LINK", "UNI", "AAVE", "COMP", "MKR", "YFI", "CRV",
   "BAL", "SUSHI"]

/-- JS regex word character (`\w`): letters, digits, underscore. -/
def isWordChar (c : Char) : Bool :=
  (Char.toNat 'a' ≤ c.toNat && c.toNat ≤ Char.toNat 'z') ||
  (Char.toNat 'A' ≤ c.toNat && c.toNat ≤ Char.toNat 'Z') ||
  (Char.toNat '0' ≤ c.toNat && c.toNat ≤ Char.toNat '9') ||
  c == '_'

/-- Does alternative `tok` match case-insensitively at the head of `t`,
with a `\b` boundary on each side (`prev` is the character before the
position, if any)? -/
def matchTokenAt (prev : Option Char) (t : List Char) (tok : List Char) :
    Bool :=
  listIsPre (tok.map Char.toLower) (t.map Char.toLower) &&
  (match prev with
   | none => true
   | some c => !isWordChar c) &&
  (match t.drop tok.length with
   | [] => true
   | c :: _ => !isWordChar c)

/-- Left-to-right scan of the JS regex engine: at each position try the
alternatives in source order; the first position with a match wins. -/
def findTokenMatch : Option Char → List Char → Option String
  | _, [] => none
  | prev, c :: rest =>
    match tokenSymbols.find?
        (fun tok => matchTokenAt prev (c :: rest) tok.data) with
    | some tok => some tok
    | none => findTokenMatch (some c) rest

/-- Model of `text.match(/\b(ETH|...)\b/i)` followed by
`match[1].toUpperCase()`: the matched alternative, already uppercase. -/
def regexTokenMatch (s : String) : Option String :=
  findTokenMatch none s.data

/-- Return value of `DataOptimizer.extractEnhancedTokenInfo`. -/
structure TokenInfo where
  address : String
  symbol : String
  amount : Option String := none
deriving DecidableEq, Repr

/-- Model of `value.substring(0, 6)`. -/
def strTake (s : String) (n : Nat) : String := String.mk (s.data.take n)

/-- Model of `String.prototype.toUpperCase` (ASCII range). -/
def upperStr (s : String) : String := String.mk (s.data.map Char.toUpper)

/-- `DataOptimizer.extractEnhancedTokenInfo`: text regex match first,
then the first attribute whose key mentions token/symbol/address, then
the innerHTML regex match, else null. -/
def extractEnhancedTokenInfo (a : RecordedAction) : Option TokenInfo :=
  match a.element with
  | none => none
  | some el =>
    match el.text.bind regexTokenMatch with
    | some sym => some { address := "0x0", symbol := sym }
    | none =>
      match (el.attributes.getD []).find? (fun kv =>
          strContains kv.1 "token" || strContains kv.1 "symbol" ||
          strContains kv.1 "address") with
      | some kv =>
        some { address := kv.2, symbol := upperStr (strTake kv.2 6) }
      | none =>
        match el.innerHTML.bind regexTokenMatch with
        | some sym => some { address := "0x0", symbol := sym }
        | none => none

/-- The per-action keyword scan inside
`DataOptimizer.determineTokenDirection`: each nearby action is checked
for the FROM cues first, then the TO cues. -/
def nearbyScan : List RecordedAction → Option SwapKind
  | [] => none
  | a :: rest =>
    let text := textLowerOrEmpty a
    if strContains text "from" || strContains text "pay" ||
       strContains text "sell" || strContains text "input" then
      some .SELECT_FROM
    else if strContains text "to" || strContains text "receive" ||
       strContains text "buy" || strContains text "output" then
      some .SELECT_TO
    else nearbyScan rest

/-- `DataOptimizer.determineTokenDirection`: scan the
`slice(max(0, i−5), min(length, i+5))` neighborhood for directional
cues; with no cue, default to FROM for the first token selection in the
flow so far and TO afterwards. -/
def determineTokenDirection (actions : List RecordedAction) (i : Nat)
    (flow : List SwapAction) : SwapKind :=
  let lo := i - 5
  let hi := min actions.length (i + 5)
  let nearby := (actions.drop lo).take (hi - lo)
  match nearbyScan nearby with
  | some d => d
  | none =>
    if (flow.filter (fun s =>
        s.action == .SELECT_FROM || s.action == .SELECT_TO)).isEmpty then
      .SELECT_FROM
    else .SELECT_TO

/-- `DataOptimizer.isEnhancedAmountField`. -/
def isEnhancedAmountField (a : RecordedAction) : Bool :=
  match a.element with
  | none => false
  | some el =>
    optLowerIncludes el.placeholder "amount" ||
    optLowerIncludes el.placeholder "0.0" ||
    optLowerIncludes el.placeholder "enter amount" ||
    optLowerIncludes el.name "amount" ||
    optLowerIncludes el.name "quantity" ||
    optIncludes el.className "amount-input" ||
    optIncludes el.className "swap-input" ||
    el.type == some "number" ||
    el.type == some "text"

/-- Return value of `DataOptimizer.extractAmountInfo`. -/
structure AmountInfo where
  amount : String
  price : Option String := none
  slippage : Option String := none
deriving DecidableEq, Repr

/-- `DataOptimizer.extractAmountInfo`: amount is `action.value || '0'`;
price and slippage are the last attribute values whose keys mention
price/rate resp. slippage/tolerance. -/
def extractAmountInfo (a : RecordedAction) : AmountInfo :=
  match a.element with
  | none => { amount := jsOrDefault a.value "0" }
  | some el =>
    let ps := (el.attributes.getD []).foldl
      (fun (ps : Option String × Option String) kv =>
        let p := if strContains kv.1 "price" || strContains kv.1 "rate"
                 then some kv.2 else ps.1
        let s := if strContains kv.1 "slippage" ||
                    strContains kv.1 "tolerance"
                 then some kv.2 else ps.2
        (p, s)) (none, none)
    { amount := jsOrDefault a.value "0", price := ps.1, slippage := ps.2 }

/-- `DataOptimizer.isEnhancedSwapButton`. -/
def isEnhancedSwapButton (text : String) : Bool :=
  ["swap", "exchange", "trade", "convert", "execute", "proceed"].any
    (fun k => strContains (lowerStr text) k)

/-- `DataOptimizer.isEnhancedApproveButton`. -/
def isEnhancedApproveButton (text : String) : Bool :=
  ["approve", "allow", "enable", "unlock", "permit", "authorize"].any
    (fun k => strContains (lowerStr text) k)

/-- `DataOptimizer.isEnhancedConfirmButton`. -/
def isEnhancedConfirmButton (text : String) : Bool :=
  ["confirm", "execute", "proceed", "continue", "submit", "finalize"].any
    (fun k => strContains (lowerStr text) k)

/-- The mutable state of the Pass 2 loop: the flow built so far and the
`flowIndex` counter used for fresh ids. -/
structure FlowState where
  flow : List SwapAction := []
  flowIndex : Nat := 0
deriving DecidableEq, Repr

/-- Predicate of the `find` call in the input branch:
`a.action === 'INPUT_AMOUNT' && a.timestamp! < action.timestamp` (an
undefined timestamp compares false). -/
def isPendingInput (t : Int) (s : SwapAction) : Bool :=
  s.action == .INPUT_AMOUNT &&
  (match s.timestamp with
   | some ts => decide (ts < t)
   | none => false)

/-- The in-place update of the found step:
`lastInput.value = action.value; if (lastInput.metadata)
lastInput.metadata.amount = action.value`. -/
def updatePending (v : Option String) (s : SwapAction) : SwapAction :=
  { s with
    value := v,
    metadata := match s.metadata with
                | none => none
                | some m => some { m with amount := v } }

/-- Mutating through the reference returned by `find` updates the first
matching element of the array. -/
def setFirstPending (t : Int) (v : Option String) :
    List SwapAction → List SwapAction
  | [] => []
  | s :: rest =>
    if isPendingInput t s then updatePending v s :: rest
    else s :: setFirstPending t v rest

/-- The freshly pushed INPUT_AMOUNT step of the input branch. -/
def newInputStep (st : FlowState) (a : RecordedAction) : SwapAction :=
  let info := extractAmountInfo a
  { id := st.flowIndex,
    action := .INPUT_AMOUNT,
    value := a.value,
    selector := a.selector,
    timestamp := some a.timestamp,
    metadata := some { amount := some info.amount, price := info.price,
                       slippage := info.slippage } }

/-- The amount-input branch of the Pass 2 loop: look up the FIRST
INPUT_AMOUNT step older than the new input; push a new step when there
is none or it is more than 2000 ms older, otherwise update it in
place. -/
def inputBranch (st : FlowState) (a : RecordedAction) : FlowState :=
  match st.flow.find? (fun s => isPendingInput a.timestamp s) with
  | none =>
    { flow := st.flow ++ [newInputStep st a],
      flowIndex := st.flowIndex + 1 }
  | some f =>
    if a.timestamp - f.timestamp.getD 0 > 2000 then
      { flow := st.flow ++ [newInputStep st a],
        flowIndex := st.flowIndex + 1 }
    else
      { st with flow := setFirstPending a.timestamp a.value st.flow }

/-- The token-selection branch of the Pass 2 loop. -/
def tokenBranch (actions : List RecordedAction) (i : Nat)
    (st : FlowState) (a : RecordedAction) (text : String) : FlowState :=
  if isEnhancedTokenSelection a text then
    match extractEnhancedTokenInfo a with
    | none => st
    | some ti =>
      { flow := st.flow ++
          [{ id := st.flowIndex,
             action := determineTokenDirection actions i st.flow,
             value := some ti.symbol,
             selector := a.selector,
             timestamp := some a.timestamp,
             metadata := some { tokenAddress := some ti.address,
                                tokenSymbol := some ti.symbol,
                                amount := ti.amount } }],
        flowIndex := st.flowIndex + 1 }
  else st

/-- Push one of the CLICK_SWAP / APPROVE / CONFIRM steps, which carry
only selector and timestamp. -/
def pushStep (st : FlowState) (k : SwapKind) (a : RecordedAction) :
    FlowState :=
  { flow := st.flow ++
      [{ id := st.flowIndex, action := k, selector := a.selector,
         timestamp := some a.timestamp }],
    flowIndex := st.flowIndex + 1 }

/-- One iteration of the Pass 2 loop over action `a` at position `i`:
skip when the action has no element snapshot, then run the
token-selection, amount-input, swap-, approve-, and confirm-button
branches in source order (they are not mutually exclusive). -/
def processAction (actions : List RecordedAction) (i : Nat)
    (st : FlowState) (a : RecordedAction) : FlowState :=
  match a.element with
  | none => st
  | some el =>
    let text := lowerStr (el.text.getD "")
    let buttonText := el.text.getD ""
    let st1 := tokenBranch actions i st a text
    let st2 := if a.type == "input" &&
                  (a.isAmountInput || isEnhancedAmountField a)
               then inputBranch st1 a else st1
    let st3 := if a.type == "click" && isEnhancedSwapButton buttonText
               then pushStep st2 .CLICK_SWAP a else st2
    let st4 := if a.type == "click" && isEnhancedApproveButton buttonText
               then pushStep st3 .APPROVE a else st3
    if a.type == "click" && isEnhancedConfirmButton buttonText
    then pushStep st4 .CONFIRM a else st4

/-- The Pass 2 loop, carrying the position for the neighborhood scan. -/
def extractFlowAux (actions : List RecordedAction) :
    Nat → List RecordedAction → FlowState → FlowState
  | _, [], st => st
  | i, a :: rest, st =>
    extractFlowAux actions (i + 1) rest (processAction actions i st a)

/-- The final comparator
`(a.timestamp || 0) - (b.timestamp || 0)` as a total order (the JS
engine's sort is stable; it is modelled by the stable
`List.insertionSort`). -/
def flowLE (a b : SwapAction) : Prop :=
  a.timestamp.getD 0 ≤ b.timestamp.getD 0

instance : DecidableRel flowLE := fun a b =>
  id (inferInstance : Decidable (a.timestamp.getD 0 ≤ b.timestamp.getD 0))

instance : IsTotal SwapAction flowLE :=
  ⟨fun a b => Int.le_total (a.timestamp.getD 0) (b.timestamp.getD 0)⟩

instance : IsTrans SwapAction flowLE := ⟨fun _ _ _ h h2 => le_trans h h2⟩

/-- The id renumbering after the final sort:
`swapFlow.forEach((action, index) => action.id = index)`. -/
def renumber (flow : List SwapAction) : List SwapAction :=
  flow.mapIdx (fun i s => { s with id := i })

/-- `DataOptimizer.extractEnhancedSwapFlow`: the loop, the stable sort
by timestamp, and the id renumbering. -/
def extractEnhancedSwapFlow (actions : List RecordedAction) :
    List SwapAction :=
  renumber (((extractFlowAux actions 0 actions {}).flow).insertionSort flowLE)

/-! ## Pass 3 — API endpoint extraction
(`DataOptimizer.extractEnhancedApiPatterns` and helpers) -/

/-- Model of the WHATWG `URL` constructor as used by `normalizeUrl` and
`extractParams`, for absolute http/https URLs: the scheme is matched
case-insensitively; the authority runs to the first `/`, `?` or `#` and
must be non-empty; the pathname runs to the first `?` or `#` and is `/`
when absent; the query runs from `?` to `#`. Other inputs — which make
the constructor throw — return `none`. (Host case-folding, ports,
userinfo and path normalization are outside the model; no modelled
property depends on them.) -/
def parseURL (u : String) : Option (String × String × String) :=
  let tryScheme : Option (String × String) :=
    if lowerStr (strTake u 8) == "https://" then
      some ("https", String.mk (u.data.drop 8))
    else if lowerStr (strTake u 7) == "http://" then
      some ("http", String.mk (u.data.drop 7))
    else none
  match tryScheme with
  | none => none
  | some (scheme, rest) =>
    let auth := rest.data.takeWhile
      (fun c => !(c == '/' || c == '?' || c == '#'))
    if auth.isEmpty then none
    else
      let afterAuth := rest.data.drop auth.length
      let path :=
        match afterAuth with
        | [] => "/"
        | c :: _ =>
          if c == '/' then
            String.mk (afterAuth.takeWhile (fun c2 => !(c2 == '?' || c2 == '#')))
          else "/"
      let afterPath := afterAuth.drop
        (afterAuth.takeWhile (fun c2 => !(c2 == '?' || c2 == '#'))).length
      let query :=
        match afterPath with
        | '?' :: qs => String.mk (qs.takeWhile (fun c2 => !(c2 == '#')))
        | _ => ""
      some (scheme ++ "://" ++ String.mk auth, path, query)

/-- `url.origin ++ url.pathname` of a parse result. -/
def originPathname (parsed : String × String × String) : String :=
  parsed.1 ++ parsed.2.1

/-- Model of `.replace(/\/$/, '')`: remove one trailing slash, if any. -/
def dropOneTrailingSlash (s : String) : String :=
  match s.data.reverse with
  | '/' :: rest => String.mk rest.reverse
  | _ => s

/-- Model of `url.split('?')[0]`. -/
def beforeFirstQuery (u : String) : String :=
  String.mk (u.data.takeWhile (fun c => !(c == '?')))

/-- `DataOptimizer.normalizeUrl`: origin + pathname of the parsed URL,
or everything before the query when parsing throws; in both cases with
a single trailing slash removed. -/
def normalizeUrl (url : String) : String :=
  match parseURL url with
  | some parsed => dropOneTrailingSlash (originPathname parsed)
  | none => dropOneTrailingSlash (beforeFirstQuery url)

/-- Split a query string on `&`, then each piece at its first `=`
(`URLSearchParams` iteration; percent-decoding is outside the model). -/
def splitQueryPiece (piece : List Char) : String × String :=
  let k := piece.takeWhile (fun c => !(c == '='))
  let rest := piece.drop k.length
  match rest with
  | '=' :: v => (String.mk k, String.mk v)
  | _ => (String.mk k, "")

/-- Helper: split a character list on a separator character. -/
def splitOnChar (sep : Char) : List Char → List (List Char)
  | [] => [[]]
  | c :: rest =>
    let r := splitOnChar sep rest
    if c == sep then [] :: r
    else
      match r with
      | [] => [[c]]
      | piece :: more => (c :: piece) :: more

/-- `DataOptimizer.extractParams`: the query parameters of the URL as
key/value pairs, `{}` when the URL constructor throws. -/
def extractParams (url : String) : List (String × String) :=
  match parseURL url with
  | none => []
  | some parsed =>
    let q := parsed.2.2
    if q == "" then []
    else (splitOnChar '&' q.data).map splitQueryPiece

/-- The closed variant of API purposes (`ApiEndpoint.purpose`). -/
inductive ApiPurpose where
  | quote
  | swap
  | approve
  | token_list
  | price
  | balance
  | gas
  | other
deriving DecidableEq, Repr

/-- `DataOptimizer.determineEnhancedApiPurpose`: fixed-priority keyword
match on the lower-cased full URL, first match wins. -/
def determineEnhancedApiPurpose (url : String) : ApiPurpose :=
  let u := lowerStr url
  if strContains u "/quote" || strContains u "/price" ||
     strContains u "/rate" then .quote
  else if strContains u "/swap" || strContains u "/execute" ||
     strContains u "/trade" then .swap
  else if strContains u "/approve" || strContains u "/allowance" ||
     strContains u "/permit" then .approve
  else if strContains u "/token" || strContains u "/list" ||
     strContains u "/pairs" then .token_list
  else if strContains u "/balance" || strContains u "/account" then .balance
  else if strContains u "/gas" || strContains u "/estimate" then .gas
  else .other

/-- The header allow-list of `DataOptimizer.sanitizeHeaders`. -/
def importantHeaders : List String :=
  ["content-type", "authorization", "x-api-key", "referer"]

/-- `DataOptimizer.sanitizeHeaders`: keep only allow-listed headers
(matching the lower-cased key) and replace the values of
authorization / x-api-key entries by the fixed mask. -/
def sanitizeHeaders (headers : Option (List (String × String))) :
    List (String × String) :=
  match headers with
  | none => []
  | some hs =>
    hs.filterMap (fun kv =>
      if lowerStr kv.1 ∈ importantHeaders then
        if lowerStr kv.1 = "authorization" ∨ lowerStr kv.1 = "x-api-key" then
          some (kv.1, "***MASKED***")
        else some (kv.1, kv.2)
      else none)

/-- `DataOptimizer.extractResponsePattern`. -/
structure ResponsePattern where
  hasResponse : Bool
  statusCode : Option Int := none
  contentType : Option String := none
deriving DecidableEq, Repr

/-- `request.response?.headers?.['content-type']` and friends. -/
def extractResponsePattern (r : NetworkRequest) : ResponsePattern :=
  { hasResponse := r.response.isSome,
    statusCode := r.response.map (fun resp => resp.status),
    contentType := r.response.bind (fun resp =>
      (resp.headers.getD []).lookup "content-type") }

/-- One deduplicated API endpoint (`ApiEndpoint`). -/
structure ApiEndpoint where
  url : String
  method : String
  purpose : ApiPurpose
  params : List (String × String) := []
  headers : List (String × String) := []
  responsePattern : ResponsePattern := { hasResponse := false }
deriving DecidableEq, Repr

/-- The endpoint record built for a request on first sight of its key. -/
def mkEndpoint (r : NetworkRequest) : ApiEndpoint :=
  { url := normalizeUrl r.url,
    method := r.method,
    purpose := determineEnhancedApiPurpose r.url,
    params := extractParams r.url,
    headers := sanitizeHeaders r.headers,
    responsePattern := extractResponsePattern r }

/-- The dedup key `method + "_" + normalizeUrl(url)`. -/
def apiKey (r : NetworkRequest) : String :=
  r.method ++ "_" ++ normalizeUrl r.url

/-- The loop of `extractEnhancedApiPatterns` over the JS `Map`
(insertion-ordered, modelled by an association list): insert only on a
fresh key. -/
def extractApiAux : List NetworkRequest → List (String × ApiEndpoint) →
    List (String × ApiEndpoint)
  | [], acc => acc
  | r :: rest, acc =>
    if (acc.lookup (apiKey r)).isSome then extractApiAux rest acc
    else extractApiAux rest (acc ++ [(apiKey r, mkEndpoint r)])

/-- `DataOptimizer.extractEnhancedApiPatterns`:
`Array.from(apiMap.values())`. -/
def extractEnhancedApiPatterns (requests : List NetworkRequest) :
    List ApiEndpoint :=
  (extractApiAux requests []).map Prod.snd

/-! ## Pass 4 — selector harvesting
(`DataOptimizer.extractEssentialSelectors`) -/

/-- The essential-selector map. The source writes exactly five keys into
a `Map<string, string>`; the map is modelled by one optional field per
canonical role. -/
structure EssentialSelectors where
  fromTokenButton : Option String := none
  toTokenButton : Option String := none
  amountInput : Option String := none
  swapButton : Option String := none
  approveButton : Option String := none
deriving DecidableEq, Repr

/-- One iteration of the Pass 4 loop: skip actions without a truthy
selector or an element; the token-role branches overwrite, the
amount-input branch writes only when unset, the swap/approve branches
overwrite. -/
def selStep (m : EssentialSelectors) (a : RecordedAction) :
    EssentialSelectors :=
  if !(jsTruthy a.selector) || a.element.isNone then m
  else
    let el := a.element.getD {}
    let text := lowerStr (el.text.getD "")
    let m1 :=
      if strContains text "select" && strContains text "token" then
        if strContains text "from" || strContains text "pay" then
          { m with fromTokenButton := a.selector }
        else if strContains text "to" || strContains text "receive" then
          { m with toTokenButton := a.selector }
        else m
      else m
    let m2 :=
      if a.type == "input" && isEnhancedAmountField a then
        if m1.amountInput.isNone then { m1 with amountInput := a.selector }
        else m1
      else m1
    let m3 :=
      if isEnhancedSwapButton (el.text.getD "") then
        { m2 with swapButton := a.selector }
      else m2
    if isEnhancedApproveButton (el.text.getD "") then
      { m3 with approveButton := a.selector }
    else m3

/-- `DataOptimizer.extractEssentialSelectors` over the deduplicated
actions. -/
def extractEssentialSelectors (actions : List RecordedAction) :
    EssentialSelectors :=
  actions.foldl selStep {}

/-! ## Summary arithmetic
(`DataOptimizer.calculateComprehensiveSummary`) -/

/-- JS `number` values reachable by the compression-ratio computation:
NaN, the two infinities, and exact rationals (every value that actually
occurs is exactly representable, so rounding is not modelled). -/
inductive JSNum where
  | nan
  | posInf
  | negInf
  | num (q : ℚ)
deriving DecidableEq

/-- JS division, including `0/0 = NaN` and `x/0 = ±Infinity`. -/
def jsDiv : JSNum → JSNum → JSNum
  | .nan, _ => .nan
  | _, .nan => .nan
  | .posInf, .posInf => .nan
  | .posInf, .negInf => .nan
  | .negInf, .posInf => .nan
  | .negInf, .negInf => .nan
  | .posInf, .num q => if q < 0 then .negInf else .posInf
  | .negInf, .num q => if q < 0 then .posInf else .negInf
  | .num _, .posInf => .num 0
  | .num _, .negInf => .num 0
  | .num a, .num b =>
    if b = 0 then
      if a = 0 then .nan else if a < 0 then .negInf else .posInf
    else .num (a / b)

/-- JS subtraction on the modelled values. -/
def jsSub : JSNum → JSNum → JSNum
  | .nan, _ => .nan
  | _, .nan => .nan
  | .posInf, .posInf => .nan
  | .posInf, _ => .posInf
  | .negInf, .negInf => .nan
  | .negInf, _ => .negInf
  | .num _, .posInf => .negInf
  | .num _, .negInf => .posInf
  | .num a, .num b => .num (a - b)

/-- JS multiplication on the modelled values. -/
def jsMul : JSNum → JSNum → JSNum
  | .nan, _ => .nan
  | _, .nan => .nan
  | .posInf, .posInf => .posInf
  | .posInf, .negInf => .negInf
  | .negInf, .posInf => .negInf
  | .negInf, .negInf => .posInf
  | .posInf, .num q => if q = 0 then .nan else if q < 0 then .negInf else .posInf
  | .negInf, .num q => if q = 0 then .nan else if q < 0 then .posInf else .negInf
  | .num q, .posInf => if q = 0 then .nan else if q < 0 then .negInf else .posInf
  | .num q, .negInf => if q = 0 then .nan else if q < 0 then .posInf else .negInf
  | .num a, .num b => .num (a * b)

/-- `Number.prototype.toFixed(1)` on the modelled values: NaN renders as
"NaN", infinities as "±Infinity", and a rational by sign-split and
round-half-up of ten times its magnitude (the ES `toFixed`
algorithm). -/
def jsToFixed1 (x : JSNum) : String :=
  match x with
  | .nan => "NaN"
  | .posInf => "Infinity"
  | .negInf => "-Infinity"
  | .num q =>
    let render (m : Nat) : String :=
      toString (m / 10) ++ "." ++ toString (m % 10)
    if q < 0 then
      "-" ++ render (Int.toNat ⌊10 * (-q) + 1 / 2⌋)
    else
      render (Int.toNat ⌊10 * q + 1 / 2⌋)

/-- The `compressionRatio` string of
`calculateComprehensiveSummary`:
`((1 - optimized/original) * 100).toFixed(1) + "%"`. -/
def calcCompressionRatio (orig opt : Nat) : String :=
  jsToFixed1 (jsMul (jsSub (.num 1) (jsDiv (.num opt) (.num orig)))
    (.num 100)) ++ "%"

/-- The summary counters of `OptimizationSummary` that
`calculateComprehensiveSummary` fills in. -/
structure OptimizationSummary where
  originalActions : Nat
  optimizedActions : Nat
  duplicatesRemoved : Nat
  compressionRatioStr : String
  swapDetected : Bool
deriving DecidableEq, Repr

/-- The slice of `OptimizedData` covered by the modelled passes. -/
structure OptimizedData where
  swapFlow : List SwapAction
  apiEndpoints : List ApiEndpoint
  essentialSelectors : EssentialSelectors
  summary : OptimizationSummary
deriving DecidableEq, Repr

/-- `DataOptimizer.optimize`, restricted to the deterministic passes the
properties concern (deduplication, swap flow, API endpoints, selector
harvesting, summary); the dummy-value analyses of steps 5–9 write only
fields outside this slice. -/
def optimize (rec : Recording) : OptimizedData :=
  let dedup := removeDuplicates rec.actions
  let flow := extractEnhancedSwapFlow dedup.1
  { swapFlow := flow,
    apiEndpoints := extractEnhancedApiPatterns rec.networkRequests,
    essentialSelectors := extractEssentialSelectors dedup.1,
    summary :=
      { originalActions := rec.actions.length,
        optimizedActions := flow.length,
        duplicatesRemoved := dedup.2,
        compressionRatioStr :=
          calcCompressionRatio rec.actions.length flow.length,
        swapDetected := decide (0 < flow.length) } }

/-! ## Session stop (`RecorderEngine.stopRecording`) -/

/-- A raw in-page action drained from a frame buffer
(`window.__recordedActions` entries): absolute `Date.now()` timestamp,
wallet fields named `method`/`params` before the rename in
`stopRecording`. -/
structure RawAction where
  type : String
  timestamp : Int
  selector : Option String := none
  xpath : Option String := none
  value : Option String := none
  url : Option String := none
  element : Option ElementInfo := none
  method : Option String := none
  isSwapAction : Bool := false
  isAmountInput : Bool := false
deriving DecidableEq, Repr

/-- The per-action rewrite in the `pageActions.forEach` push of
`stopRecording`: timestamps become relative to the session start
(`action.timestamp - this.startTime`); the random uuid is outside the
model and left empty. -/
def toRecordedAction (startTime : Int) (r : RawAction) : RecordedAction :=
  { id := "",
    type := r.type,
    timestamp := r.timestamp - startTime,
    selector := r.selector,
    xpath := r.xpath,
    value := r.value,
    url := r.url,
    element := r.element,
    walletMethod := r.method,
    isSwapAction := r.isSwapAction,
    isAmountInput := r.isAmountInput }

/-- The sort comparator `(a, b) => a.timestamp - b.timestamp` of
`stopRecording` as a total order (the JS sort is stable; it is modelled
by the stable `List.insertionSort`). -/
def rawLE (a b : RawAction) : Prop := a.timestamp ≤ b.timestamp

instance : DecidableRel rawLE := fun a b =>
  id (inferInstance : Decidable (a.timestamp ≤ b.timestamp))

instance : IsTotal RawAction rawLE :=
  ⟨fun a b => Int.le_total a.timestamp b.timestamp⟩

instance : IsTrans RawAction rawLE := ⟨fun _ _ _ h h2 => le_trans h h2⟩

/-- The action-merging core of `RecorderEngine.stopRecording`:
`prevActions` is the orchestrator's own buffer at stop time (the
navigate actions pushed live, already session-relative); the frame
buffers are concatenated, sorted by absolute timestamp (the JS sort is
stable), rewritten relative to `startTime`, and pushed AFTER the
buffered actions. -/
def stopRecordingActions (prevActions : List RecordedAction)
    (frameBuffers : List (List RawAction)) (startTime : Int) :
    List RecordedAction :=
  prevActions ++
    ((frameBuffers.flatten.insertionSort rawLE).map
      (toRecordedAction startTime))

/-! ## The match predicates of Pass 4, one per canonical role

These restate the conditions of the Pass 4 loop as standalone predicates
so that the harvesting result can be characterised per role. -/

/-- The loop-entry guard of Pass 4:
`if (!action.selector || !action.element) continue`. -/
def selEligible (a : RecordedAction) : Bool :=
  jsTruthy a.selector && a.element.isSome

/-- The lower-cased element text used by the Pass 4 branches. -/
def selText (a : RecordedAction) : String :=
  lowerStr ((a.element.getD {}).text.getD "")

/-- An action writing the `fromTokenButton` role. -/
def matchFromRole (a : RecordedAction) : Bool :=
  selEligible a && strContains (selText a) "select" &&
  strContains (selText a) "token" &&
  (strContains (selText a) "from" || strContains (selText a) "pay")

/-- An action writing the `toTokenButton` role (the else-if branch). -/
def matchToRole (a : RecordedAction) : Bool :=
  selEligible a && strContains (selText a) "select" &&
  strContains (selText a) "token" &&
  !(strContains (selText a) "from" || strContains (selText a) "pay") &&
  (strContains (selText a) "to" || strContains (selText a) "receive")

/-- An action writing the `amountInput` role. -/
def matchAmountRole (a : RecordedAction) : Bool :=
  selEligible a && a.type == "input" && isEnhancedAmountField a

/-- An action writing the `swapButton` role. -/
def matchSwapRole (a : RecordedAction) : Bool :=
  selEligible a && isEnhancedSwapButton ((a.element.getD {}).text.getD "")

/-- An action writing the `approveButton` role. -/
def matchApproveRole (a : RecordedAction) : Bool :=
  selEligible a && isEnhancedApproveButton ((a.element.getD {}).text.getD "")

/-! ## Concrete instances used by the example-based claims -/

/-- Element snapshot of the MAX button in the spec's worked example. -/
def exElMAX : ElementInfo := { tag := "button", text := some "MAX" }

/-- Element snapshot of the amount input in the spec's worked example. -/
def exElAmount : ElementInfo := { tag := "input" }

/-- Element snapshot of the Approve button. -/
def exElApprove : ElementInfo := { tag := "button", text := some "Approve" }

/-- Element snapshot of the Swap button. -/
def exElSwap : ElementInfo := { tag := "button", text := some "Swap" }

/-- click(selector="#max-btn", text="MAX", t=100). -/
def exC4a1 : RecordedAction :=
  { type := "click", timestamp := 100, selector := some "#max-btn",
    element := some exElMAX }

/-- input(selector="#amount", value="10", isAmountInput=true, t=200). -/
def exC4a2 : RecordedAction :=
  { type := "input", timestamp := 200, selector := some "#amount",
    value := some "10", element := some exElAmount, isAmountInput := true }

/-- click(text="Approve", t=5100). -/
def exC4a3 : RecordedAction :=
  { type := "click", timestamp := 5100, element := some exElApprove }

/-- click(text="Swap", t=6200). -/
def exC4a4 : RecordedAction :=
  { type := "click", timestamp := 6200, element := some exElSwap }

/-- The duplicate click(text="Swap", t=6250). -/
def exC4a5 : RecordedAction :=
  { type := "click", timestamp := 6250, element := some exElSwap }

/-- The Recording of the spec's worked optimization example. -/
def recC4 : Recording :=
  { actions := [exC4a1, exC4a2, exC4a3, exC4a4, exC4a5] }

/-- A Recording with zero original actions. -/
def recEmpty : Recording := { actions := [] }

/-- GET https://x/api/quote?x=1. -/
def reqQuote1 : NetworkRequest := { url := "https://x/api/quote?x=1", method := "GET" }

/-- GET https://x/api/quote?y=2. -/
def reqQuote2 : NetworkRequest := { url := "https://x/api/quote?y=2", method := "GET" }

/-- Same-key click at t=5000, arriving first in an unsorted log. -/
def exC3a1 : RecordedAction :=
  { type := "click", timestamp := 5000, selector := some "#b" }

/-- Same-key click at t=100, arriving second in an unsorted log. -/
def exC3a2 : RecordedAction :=
  { type := "click", timestamp := 100, selector := some "#b" }

/-- Sorted same-key bursts for the C3 witness: t=0, t=500, t=1600. -/
def exC3w1 : RecordedAction :=
  { type := "click", timestamp := 0, selector := some "#b" }

/-- Second record of the first burst (within 1000 ms of t=0). -/
def exC3w2 : RecordedAction :=
  { type := "click", timestamp := 500, selector := some "#b" }

/-- First record of the second burst (more than 1000 ms after t=0). -/
def exC3w3 : RecordedAction :=
  { type := "click", timestamp := 1600, selector := some "#b" }

/-- First swap-button click, selector "#s1". -/
def exC5a1 : RecordedAction :=
  { type := "click", timestamp := 0, selector := some "#s1",
    element := some exElSwap }

/-- Later swap-button click, selector "#s2". -/
def exC5a2 : RecordedAction :=
  { type := "click", timestamp := 10, selector := some "#s2",
    element := some exElSwap }

/-- Amount input at t=100 (first INPUT_AMOUNT step). -/
def exC6i1 : RecordedAction :=
  { type := "input", timestamp := 100, selector := some "#a",
    value := some "1", element := some exElAmount, isAmountInput := true }

/-- Amount input at t=3000 (second INPUT_AMOUNT step). -/
def exC6i2 : RecordedAction :=
  { type := "input", timestamp := 3000, selector := some "#a2",
    value := some "2", element := some exElAmount, isAmountInput := true }

/-- Amount input at t=4000, within 2000 ms of the pending t=3000 step. -/
def exC6i3 : RecordedAction :=
  { type := "input", timestamp := 4000, selector := some "#a3",
    value := some "3", element := some exElAmount, isAmountInput := true }

/-- The INPUT_AMOUNT step the C6 witness flow holds. -/
def exC6step : SwapAction :=
  { id := 0, action := .INPUT_AMOUNT, value := some "1",
    selector := some "#a", timestamp := some 100,
    metadata := some { amount := some "1" } }

/-- A flow state holding one pending INPUT_AMOUNT step at t=100. -/
def exC6state : FlowState := { flow := [exC6step], flowIndex := 1 }

/-- Amount input at t=1500, within 2000 ms of the pending t=100 step. -/
def exC6wa : RecordedAction :=
  { type := "input", timestamp := 1500, selector := some "#a2",
    value := some "9", element := some exElAmount, isAmountInput := true }

/-- A navigate action buffered live by the orchestrator at relative
t=5000. -/
def exC1nav : RecordedAction :=
  { type := "navigate", timestamp := 5000, url := some "https://dex.example" }

/-- A raw frame-buffer click at absolute t=100 (session start 0). -/
def exC1raw : RawAction := { type := "click", timestamp := 100 }

/-- Header list with a secret authorization value. -/
def exHdrs1 : List (String × String) :=
  [("Authorization", "Bearer secret-one"), ("content-type", "application/json")]

/-- The same header list with a different secret. -/
def exHdrs2 : List (String × String) :=
  [("Authorization", "Bearer secret-two"), ("content-type", "application/json")]

/-! ## C4 — the spec's worked optimization example -/

/-- C4: on the five-action example (MAX click, amount input "10",
Approve click, Swap click, duplicate Swap click 50 ms later) the
optimizer produces exactly the swap flow
[INPUT_AMOUNT("10", t=200), APPROVE(t=5100), CLICK_SWAP(t=6200)],
reports one removed duplicate, and flags the swap as detected. -/
theorem C4_concrete_pipeline :
    (optimize recC4).swapFlow =
      [{ id := 0, action := .INPUT_AMOUNT, value := some "10",
         selector := some "#amount", timestamp := some 200,
         metadata := some { amount := some "10" } },
       { id := 1, action := .APPROVE, timestamp := some 5100 },
       { id := 2, action := .CLICK_SWAP, timestamp := some 6200 }] ∧
    (optimize recC4).summary.duplicatesRemoved = 1 ∧
    (optimize recC4).summary.swapDetected = true := by
  decide

/-! ## C2 — the compression ratio at zero original actions -/

/-- C2 counterexample: on a Recording with zero original actions the
summary's compression ratio is the string "NaN%": the `0/0` division is
not guarded, so the result, while a defined fixed string, IS the
rendering of a NaN — refuting "never an undefined or NaN result". -/
theorem C2_counterexample :
    (optimize recEmpty).summary.compressionRatioStr = "NaN%" ∧
    strContains ((optimize recEmpty).summary.compressionRatioStr) "NaN" =
      true := by
  decide

/-- C2 (amended): for every Recording with zero original actions the
compression ratio is always the same defined string "NaN%" — a fixed
value and never the JS `undefined`, but produced by the unguarded 0/0
division rather than by a sentinel guard. -/
theorem C2_amended_nan_ratio (rec : Recording) (h : rec.actions = []) :
    (optimize rec).summary.compressionRatioStr = "NaN%" := by
  unfold optimize
  rw [h]
  rfl

/-- C2 witness: the amended theorem applied to the concrete empty
Recording. -/
theorem C2_amended_nan_ratio_witness :
    recEmpty.actions = [] ∧
    (optimize recEmpty).summary.compressionRatioStr = "NaN%" :=
  ⟨rfl, C2_amended_nan_ratio recEmpty rfl⟩

/-! ## C7 — uniqueness of the ApiEndpoint table -/

/-- A key that misses the association list differs from every stored
key. -/
theorem lookup_isSome_false_forall {α : Type} :
    ∀ (acc : List (String × α)) (k : String),
    (acc.lookup k).isSome = false → ∀ p ∈ acc, p.1 ≠ k
  | [], _, _, p, hp => by cases hp
  | q :: rest, k, h, p, hp => by
    rw [List.lookup] at h
    by_cases hk : (k == q.1) = true
    · rw [hk] at h
      simp at h
    · rw [Bool.of_not_eq_true hk] at h
      cases hp with
      | head =>
        intro hq
        exact hk (by rw [hq]; exact beq_self_eq_true k)
      | tail _ hp2 =>
        exact lookup_isSome_false_forall rest k h p hp2

/-- Invariant of the Pass 3 loop: every stored key is determined by the
stored endpoint's method and url, and the stored keys are pairwise
distinct. -/
theorem extractApiAux_inv (rs : List NetworkRequest) :
    ∀ (acc : List (String × ApiEndpoint)),
    (∀ p ∈ acc, p.1 = p.2.method ++ "_" ++ p.2.url) →
    List.Pairwise (fun p q => p.1 ≠ q.1) acc →
    (∀ p ∈ extractApiAux rs acc, p.1 = p.2.method ++ "_" ++ p.2.url) ∧
    List.Pairwise (fun p q => p.1 ≠ q.1) (extractApiAux rs acc) := by
  induction rs with
  | nil => intro acc h1 h2; exact ⟨h1, h2⟩
  | cons r rest ih =>
    intro acc h1 h2
    rw [extractApiAux]
    by_cases hmem : (acc.lookup (apiKey r)).isSome
    · rw [if_pos hmem]
      exact ih acc h1 h2
    · rw [if_neg hmem]
      apply ih
      · intro p hp
        rcases List.mem_append.mp hp with hp | hp
        · exact h1 p hp
        · rw [List.mem_singleton] at hp
          subst hp
          rfl
      · rw [List.pairwise_append]
        refine ⟨h2, List.pairwise_singleton _ _, ?_⟩
        intro p hp q hq
        rw [List.mem_singleton] at hq
        subst hq
        exact lookup_isSome_false_forall acc (apiKey r)
          (Bool.of_not_eq_true hmem) p hp

/-- C7: the ApiEndpoint table contains at most one entry per
(method, normalized-url) pair, for every request list; and the two
quote requests differing only in their query strings collapse to a
single endpoint with purpose `quote` and the query-stripped url. -/
theorem C7_api_endpoint_uniqueness :
    (∀ rs : List NetworkRequest,
      List.Pairwise (fun e1 e2 => e1.method ≠ e2.method ∨ e1.url ≠ e2.url)
        (extractEnhancedApiPatterns rs)) ∧
    (extractEnhancedApiPatterns [reqQuote1, reqQuote2]).map
        (fun e => (e.method, e.url, e.purpose)) =
      [("GET", "https://x/api/quote", ApiPurpose.quote)] := by
  constructor
  · intro rs
    have h := extractApiAux_inv rs [] (by intro p hp; cases hp)
      List.Pairwise.nil
    rw [extractEnhancedApiPatterns, List.pairwise_map]
    refine h.2.imp_of_mem ?_
    intro p q hp hq hne
    by_contra hc
    push_neg at hc
    exact hne (by rw [h.1 p hp, h.1 q hq, hc.1, hc.2])
  · decide

/-! ## C9 — header sanitization never leaks secrets -/

/-- Unfolding equation of `sanitizeHeaders` on a non-empty header list. -/
theorem sanitizeHeaders_cons (p : String × String)
    (l : List (String × String)) :
    sanitizeHeaders (some (p :: l)) =
      if lowerStr p.1 ∈ importantHeaders then
        if lowerStr p.1 = "authorization" ∨ lowerStr p.1 = "x-api-key" then
          (p.1, "***MASKED***") :: sanitizeHeaders (some l)
        else (p.1, p.2) :: sanitizeHeaders (some l)
      else sanitizeHeaders (some l) := by
  by_cases h1 : lowerStr p.1 ∈ importantHeaders
  · by_cases h2 : lowerStr p.1 = "authorization" ∨ lowerStr p.1 = "x-api-key"
    · simp [sanitizeHeaders, List.filterMap_cons, h1, h2]
    · simp [sanitizeHeaders, List.filterMap_cons, h1, h2]
  · simp [sanitizeHeaders, List.filterMap_cons, h1]

/-- C9: sanitized headers contain only allow-listed keys; every retained
authorization / x-api-key entry carries the fixed mask value; and two
header maps that differ only in the values of secret-bearing entries
sanitize to identical outputs (the secret never influences the
output). -/
theorem C9_sanitize_headers_mask :
    (∀ (hs : Option (List (String × String))) (kv : String × String),
        kv ∈ sanitizeHeaders hs → lowerStr kv.1 ∈ importantHeaders) ∧
    (∀ (hs : Option (List (String × String))) (kv : String × String),
        kv ∈ sanitizeHeaders hs →
        (lowerStr kv.1 = "authorization" ∨ lowerStr kv.1 = "x-api-key") →
        kv.2 = "***MASKED***") ∧
    (∀ hs1 hs2 : List (String × String),
        List.Forall₂ (fun p q : String × String =>
          p.1 = q.1 ∧
          (¬(lowerStr p.1 = "authorization" ∨ lowerStr p.1 = "x-api-key") →
            p.2 = q.2)) hs1 hs2 →
        sanitizeHeaders (some hs1) = sanitizeHeaders (some hs2)) := by
  refine ⟨?_, ?_, ?_⟩
  · intro hs kv h
    match hs with
    | none => cases h
    | some l =>
      rcases List.mem_filterMap.mp h with ⟨a, _, hfa⟩
      by_cases h1 : lowerStr a.1 ∈ importantHeaders
      · rw [if_pos h1] at hfa
        by_cases h2 : lowerStr a.1 = "authorization" ∨
            lowerStr a.1 = "x-api-key"
        · rw [if_pos h2] at hfa
          cases hfa
          exact h1
        · rw [if_neg h2] at hfa
          cases hfa
          exact h1
      · rw [if_neg h1] at hfa
        cases hfa
  · intro hs kv h hsec
    match hs with
    | none => cases h
    | some l =>
      rcases List.mem_filterMap.mp h with ⟨a, _, hfa⟩
      by_cases h1 : lowerStr a.1 ∈ importantHeaders
      · rw [if_pos h1] at hfa
        by_cases h2 : lowerStr a.1 = "authorization" ∨
            lowerStr a.1 = "x-api-key"
        · rw [if_pos h2] at hfa
          cases hfa
          rfl
        · rw [if_neg h2] at hfa
          cases hfa
          exact absurd hsec h2
      · rw [if_neg h1] at hfa
        cases hfa
  · intro hs1 hs2 hrel
    induction hrel with
    | nil => rfl
    | @cons p q l1 l2 hpq _ ih =>
      obtain ⟨hkey, hval⟩ := hpq
      rw [sanitizeHeaders_cons, sanitizeHeaders_cons, ← hkey]
      by_cases h1 : lowerStr p.1 ∈ importantHeaders
      · rw [if_pos h1, if_pos h1]
        by_cases h2 : lowerStr p.1 = "authorization" ∨
            lowerStr p.1 = "x-api-key"
        · rw [if_pos h2, if_pos h2, ih]
        · rw [if_neg h2, if_neg h2, hval h2, ih]
      · rw [if_neg h1, if_neg h1, ih]

/-- C9 witness: the noninterference conjunct applied to two concrete
header maps that differ only in the authorization secret, and the
masked common output. -/
theorem C9_sanitize_headers_mask_witness :
    sanitizeHeaders (some exHdrs1) = sanitizeHeaders (some exHdrs2) ∧
    sanitizeHeaders (some exHdrs1) =
      [("Authorization", "***MASKED***"),
       ("content-type", "application/json")] :=
  ⟨C9_sanitize_headers_mask.2.2 exHdrs1 exHdrs2
    (List.Forall₂.cons
      ⟨rfl, fun h => absurd (Or.inl (by decide)) h⟩
      (List.Forall₂.cons ⟨rfl, fun _ => rfl⟩ List.Forall₂.nil)),
   by decide⟩

/-! ## C6 — the amount-input in-place-update window -/

/-- C6 counterexample: after amount inputs at t=100 and t=3000 the flow
holds two pending INPUT_AMOUNT steps; a third input at t=4000 is within
2000 ms of the pending t=3000 step, so per the claim it should update
that step in place and create no new step — but the code consults the
FIRST step (t=100), finds it stale, and appends a third step. -/
theorem C6_counterexample :
    (extractEnhancedSwapFlow [exC6i1, exC6i2]).map
        (fun s => (s.action, s.timestamp)) =
      [(SwapKind.INPUT_AMOUNT, some 100),
       (SwapKind.INPUT_AMOUNT, some 3000)] ∧
    exC6i3.timestamp - 3000 ≤ 2000 ∧
    (extractEnhancedSwapFlow [exC6i1, exC6i2, exC6i3]).length = 3 := by
  decide

/-- Updating the first pending step preserves the flow length. -/
theorem setFirstPending_length (t : Int) (v : Option String) :
    ∀ l : List SwapAction, (setFirstPending t v l).length = l.length := by
  intro l
  induction l with
  | nil => rfl
  | cons s rest ih =>
    rw [setFirstPending]
    by_cases h : isPendingInput t s = true
    · rw [if_pos h]
      rfl
    · rw [if_neg h, List.length_cons, List.length_cons, ih]

/-- The in-place update hits exactly the step `find` returned: after the
update, the first pending step is the updated one. -/
theorem find?_setFirstPending (t : Int) (v : Option String) :
    ∀ (l : List SwapAction) (f : SwapAction),
    l.find? (isPendingInput t) = some f →
    (setFirstPending t v l).find? (isPendingInput t) =
      some (updatePending v f) := by
  intro l
  induction l with
  | nil => intro f h; cases h
  | cons s rest ih =>
    intro f h
    rw [List.find?] at h
    by_cases hp : isPendingInput t s = true
    · rw [hp] at h
      cases h
      rw [setFirstPending, if_pos hp, List.find?]
      have hp2 : isPendingInput t (updatePending v s) = true := hp
      rw [hp2]
    · rw [Bool.of_not_eq_true hp] at h
      rw [setFirstPending, if_neg hp, List.find?,
        Bool.of_not_eq_true hp]
      exact ih f h

/-- C6 (amended): the input branch compares the new input against the
FIRST INPUT_AMOUNT step older than it, not against the most recent
pending one: with no such step, or with that first step more than
2000 ms older, a fresh step is appended (even when a more recent
pending step lies within 2000 ms); otherwise that first step is updated
in place and no step is added. -/
theorem C6_amended_first_pending (st : FlowState) (a : RecordedAction) :
    (st.flow.find? (isPendingInput a.timestamp) = none →
      inputBranch st a =
        { flow := st.flow ++ [newInputStep st a],
          flowIndex := st.flowIndex + 1 }) ∧
    (∀ f, st.flow.find? (isPendingInput a.timestamp) = some f →
      a.timestamp - f.timestamp.getD 0 > 2000 →
      inputBranch st a =
        { flow := st.flow ++ [newInputStep st a],
          flowIndex := st.flowIndex + 1 }) ∧
    (∀ f, st.flow.find? (isPendingInput a.timestamp) = some f →
      a.timestamp - f.timestamp.getD 0 ≤ 2000 →
      (inputBranch st a).flow.length = st.flow.length ∧
      (inputBranch st a).flow.find? (isPendingInput a.timestamp) =
        some (updatePending a.value f) ∧
      (inputBranch st a).flowIndex = st.flowIndex) := by
  refine ⟨?_, ?_, ?_⟩
  · intro h
    rw [inputBranch, h]
  · intro f h hgt
    rw [inputBranch, h]
    dsimp only
    rw [if_pos hgt]
  · intro f h hle
    rw [inputBranch, h]
    dsimp only
    rw [if_neg (not_lt.mpr hle)]
    exact ⟨setFirstPending_length _ _ _,
      find?_setFirstPending _ _ _ _ h, rfl⟩

/-- C6 witness: the in-place-update conjunct of the amended theorem
applied to a flow holding one pending step at t=100 and an input at
t=1500. -/
theorem C6_amended_first_pending_witness :
    exC6state.flow.find? (isPendingInput exC6wa.timestamp) =
      some exC6step ∧
    exC6wa.timestamp - exC6step.timestamp.getD 0 ≤ 2000 ∧
    (inputBranch exC6state exC6wa).flow.length =
      exC6state.flow.length ∧
    (inputBranch exC6state exC6wa).flow.find?
        (isPendingInput exC6wa.timestamp) =
      some (updatePending exC6wa.value exC6step) :=
  have h := (C6_amended_first_pending exC6state exC6wa).2.2 exC6step
    (by decide) (by decide)
  ⟨by decide, by decide, h.1, h.2.1⟩

/-! ## C5 — selector harvesting -/

/-- A truthy `string | undefined` value is a non-empty `some`. -/
theorem jsTruthy_exists {o : Option String} (h : jsTruthy o = true) :
    ∃ s, o = some s := by
  cases o with
  | none => simp [jsTruthy] at h
  | some s => exact ⟨s, rfl⟩

/-- An action matching the amount role has a truthy selector. -/
theorem matchAmountRole_truthy {a : RecordedAction}
    (h : matchAmountRole a = true) : jsTruthy a.selector = true := by
  unfold matchAmountRole selEligible at h
  simp only [Bool.and_eq_true] at h
  exact h.1.1.1

/-- Effect of one Pass 4 iteration on the `swapButton` binding. -/
theorem selStep_swapButton (m : EssentialSelectors) (a : RecordedAction) :
    (selStep m a).swapButton =
      if matchSwapRole a = true then a.selector else m.swapButton := by
  cases hel : a.element with
  | none => simp [selStep, matchSwapRole, selEligible, hel]
  | some el =>
    by_cases h1 : jsTruthy a.selector = true
    · by_cases h2 : isEnhancedSwapButton (el.text.getD "") = true
      · simp [selStep, matchSwapRole, selEligible, hel, h1, h2,
          apply_ite EssentialSelectors.swapButton]
      · simp [selStep, matchSwapRole, selEligible, hel, h1, h2,
          apply_ite EssentialSelectors.swapButton]
    · simp [selStep, matchSwapRole, selEligible, hel, h1]

/-- Effect of one Pass 4 iteration on the `approveButton` binding. -/
theorem selStep_approveButton (m : EssentialSelectors) (a : RecordedAction) :
    (selStep m a).approveButton =
      if matchApproveRole a = true then a.selector else m.approveButton := by
  cases hel : a.element with
  | none => simp [selStep, matchApproveRole, selEligible, hel]
  | some el =>
    by_cases h1 : jsTruthy a.selector = true
    · by_cases h2 : isEnhancedApproveButton (el.text.getD "") = true
      · simp [selStep, matchApproveRole, selEligible, hel, h1, h2,
          apply_ite EssentialSelectors.approveButton]
      · simp [selStep, matchApproveRole, selEligible, hel, h1, h2,
          apply_ite EssentialSelectors.approveButton]
    · simp [selStep, matchApproveRole, selEligible, hel, h1]

/-- Effect of one Pass 4 iteration on the `fromTokenButton` binding. -/
theorem selStep_fromTokenButton (m : EssentialSelectors)
    (a : RecordedAction) :
    (selStep m a).fromTokenButton =
      if matchFromRole a = true then a.selector else m.fromTokenButton := by
  cases hel : a.element with
  | none => simp [selStep, matchFromRole, selEligible, hel]
  | some el =>
    by_cases h1 : jsTruthy a.selector = true
    · simp only [selStep, matchFromRole, selEligible, selText, hel, h1]
      simp [apply_ite EssentialSelectors.fromTokenButton,
        Bool.and_assoc]
      by_cases h2 : strContains (lowerStr (el.text.getD "")) "select" = true
        <;> by_cases h3 : strContains (lowerStr (el.text.getD "")) "token" = true
        <;> by_cases h4 : (strContains (lowerStr (el.text.getD "")) "from" ||
              strContains (lowerStr (el.text.getD "")) "pay") = true
        <;> simp [h2, h3, h4]
    · simp [selStep, matchFromRole, selEligible, hel, h1]

/-- Effect of one Pass 4 iteration on the `toTokenButton` binding. -/
theorem selStep_toTokenButton (m : EssentialSelectors)
    (a : RecordedAction) :
    (selStep m a).toTokenButton =
      if matchToRole a = true then a.selector else m.toTokenButton := by
  cases hel : a.element with
  | none => simp [selStep, matchToRole, selEligible, hel]
  | some el =>
    by_cases h1 : jsTruthy a.selector = true
    · simp only [selStep, matchToRole, selEligible, selText, hel, h1]
      simp [apply_ite EssentialSelectors.toTokenButton, Bool.and_assoc]
      by_cases h2 : strContains (lowerStr (el.text.getD "")) "select" = true
        <;> by_cases h3 : strContains (lowerStr (el.text.getD "")) "token" = true
        <;> by_cases hf : strContains (lowerStr (el.text.getD "")) "from" = true
        <;> by_cases hp : strContains (lowerStr (el.text.getD "")) "pay" = true
        <;> by_cases ht : strContains (lowerStr (el.text.getD "")) "to" = true
        <;> by_cases hr : strContains (lowerStr (el.text.getD "")) "receive" = true
        <;> simp_all
    · simp [selStep, matchToRole, selEligible, hel, h1]

/-- Effect of one Pass 4 iteration on the `amountInput` binding: written
only when still unset. -/
theorem selStep_amountInput (m : EssentialSelectors) (a : RecordedAction) :
    (selStep m a).amountInput =
      if matchAmountRole a && m.amountInput.isNone then a.selector
      else m.amountInput := by
  cases hel : a.element with
  | none => simp [selStep, matchAmountRole, selEligible, hel]
  | some el =>
    by_cases h1 : jsTruthy a.selector = true
    · by_cases h2 : (a.type == "input") = true
      · by_cases h3 : isEnhancedAmountField a = true
        · by_cases h4 : m.amountInput.isNone = true
            <;> simp [selStep, matchAmountRole, selEligible, hel, h1, h2,
                  h3, h4, apply_ite EssentialSelectors.amountInput]
        · simp [selStep, matchAmountRole, selEligible, hel, h1, h2, h3,
            apply_ite EssentialSelectors.amountInput]
      · simp [selStep, matchAmountRole, selEligible, hel, h1, h2,
          apply_ite EssentialSelectors.amountInput]
    · simp [selStep, matchAmountRole, selEligible, hel, h1]

/-- The `swapButton` binding after the whole Pass 4 fold: the LAST
matching action wins (or the initial binding when none matches). -/
theorem foldl_selStep_swapButton :
    ∀ (l : List RecordedAction) (m : EssentialSelectors),
    (l.foldl selStep m).swapButton =
      match (l.filter matchSwapRole).getLast? with
      | some b => b.selector
      | none => m.swapButton
  | [], _ => rfl
  | a :: l, m => by
    rw [List.foldl_cons, foldl_selStep_swapButton l (selStep m a),
      selStep_swapButton]
    by_cases h : matchSwapRole a = true
    · rw [List.filter_cons_of_pos h, if_pos h]
      cases hF : (l.filter matchSwapRole).getLast? with
      | none =>
        rw [List.getLast?_eq_none_iff.mp hF]
        rfl
      | some b =>
        have hcons : (a :: l.filter matchSwapRole).getLast? = some b := by
          cases hFl : l.filter matchSwapRole with
          | nil => rw [hFl] at hF; cases hF
          | cons x xs =>
            rw [List.getLast?_cons_cons, ← hFl, hF]
        rw [hcons]
    · rw [List.filter_cons_of_neg h, if_neg h]

/-- The `approveButton` binding after the whole Pass 4 fold. -/
theorem foldl_selStep_approveButton :
    ∀ (l : List RecordedAction) (m : EssentialSelectors),
    (l.foldl selStep m).approveButton =
      match (l.filter matchApproveRole).getLast? with
      | some b => b.selector
      | none => m.approveButton
  | [], _ => rfl
  | a :: l, m => by
    rw [List.foldl_cons, foldl_selStep_approveButton l (selStep m a),
      selStep_approveButton]
    by_cases h : matchApproveRole a = true
    · rw [List.filter_cons_of_pos h, if_pos h]
      cases hF : (l.filter matchApproveRole).getLast? with
      | none =>
        rw [List.getLast?_eq_none_iff.mp hF]
        rfl
      | some b =>
        have hcons : (a :: l.filter matchApproveRole).getLast? = some b := by
          cases hFl : l.filter matchApproveRole with
          | nil => rw [hFl] at hF; cases hF
          | cons x xs =>
            rw [List.getLast?_cons_cons, ← hFl, hF]
        rw [hcons]
    · rw [List.filter_cons_of_neg h, if_neg h]

/-- The `fromTokenButton` binding after the whole Pass 4 fold. -/
theorem foldl_selStep_fromTokenButton :
    ∀ (l : List RecordedAction) (m : EssentialSelectors),
    (l.foldl selStep m).fromTokenButton =
      match (l.filter matchFromRole).getLast? with
      | some b => b.selector
      | none => m.fromTokenButton
  | [], _ => rfl
  | a :: l, m => by
    rw [List.foldl_cons, foldl_selStep_fromTokenButton l (selStep m a),
      selStep_fromTokenButton]
    by_cases h : matchFromRole a = true
    · rw [List.filter_cons_of_pos h, if_pos h]
      cases hF : (l.filter matchFromRole).getLast? with
      | none =>
        rw [List.getLast?_eq_none_iff.mp hF]
        rfl
      | some b =>
        have hcons : (a :: l.filter matchFromRole).getLast? = some b := by
          cases hFl : l.filter matchFromRole with
          | nil => rw [hFl] at hF; cases hF
          | cons x xs =>
            rw [List.getLast?_cons_cons, ← hFl, hF]
        rw [hcons]
    · rw [List.filter_cons_of_neg h, if_neg h]

/-- The `toTokenButton` binding after the whole Pass 4 fold. -/
theorem foldl_selStep_toTokenButton :
    ∀ (l : List RecordedAction) (m : EssentialSelectors),
    (l.foldl selStep m).toTokenButton =
      match (l.filter matchToRole).getLast? with
      | some b => b.selector
      | none => m.toTokenButton
  | [], _ => rfl
  | a :: l, m => by
    rw [List.foldl_cons, foldl_selStep_toTokenButton l (selStep m a),
      selStep_toTokenButton]
    by_cases h : matchToRole a = true
    · rw [List.filter_cons_of_pos h, if_pos h]
      cases hF : (l.filter matchToRole).getLast? with
      | none =>
        rw [List.getLast?_eq_none_iff.mp hF]
        rfl
      | some b =>
        have hcons : (a :: l.filter matchToRole).getLast? = some b := by
          cases hFl : l.filter matchToRole with
          | nil => rw [hFl] at hF; cases hF
          | cons x xs =>
            rw [List.getLast?_cons_cons, ← hFl, hF]
        rw [hcons]
    · rw [List.filter_cons_of_neg h, if_neg h]

/-- The `amountInput` binding after the whole Pass 4 fold: the FIRST
matching action wins (first-writer-wins, unlike the other roles). -/
theorem foldl_selStep_amountInput :
    ∀ (l : List RecordedAction) (m : EssentialSelectors),
    (l.foldl selStep m).amountInput =
      match m.amountInput with
      | some v => some v
      | none => ((l.filter matchAmountRole).head?).bind (fun b => b.selector)
  | [], m => by
    rw [List.foldl_nil]
    cases hm : m.amountInput <;> rfl
  | a :: l, m => by
    rw [List.foldl_cons, foldl_selStep_amountInput l (selStep m a),
      selStep_amountInput]
    cases hm : m.amountInput with
    | some v => simp
    | none =>
      by_cases h : matchAmountRole a = true
      · rw [List.filter_cons_of_pos h]
        obtain ⟨s, hs⟩ := jsTruthy_exists (matchAmountRole_truthy h)
        simp [h, hs]
      · rw [List.filter_cons_of_neg h]
        simp [h]

/-- C5 counterexample: two clicks both matching the swap-button role,
with selectors "#s1" then "#s2"; the claim requires the first writer
"#s1" to win, but the harvested binding is the later "#s2". -/
theorem C5_counterexample :
    matchSwapRole exC5a1 = true ∧ exC5a1.selector = some "#s1" ∧
    matchSwapRole exC5a2 = true ∧
    (extractEssentialSelectors [exC5a1, exC5a2]).swapButton = some "#s2" ∧
    some "#s2" ≠ some "#s1" := by
  decide

/-- C5 (amended): for every deduplicated action sequence the harvested
map binds `amountInput` to the FIRST matching action's selector
(first writer wins, never overwritten), but binds `fromTokenButton`,
`toTokenButton`, `swapButton` and `approveButton` to the LAST matching
action's selector (later matches overwrite earlier ones). -/
theorem C5_amended_selector_harvest (actions : List RecordedAction) :
    (extractEssentialSelectors actions).amountInput =
      ((actions.filter matchAmountRole).head?).bind (fun b => b.selector) ∧
    (extractEssentialSelectors actions).fromTokenButton =
      ((actions.filter matchFromRole).getLast?).bind (fun b => b.selector) ∧
    (extractEssentialSelectors actions).toTokenButton =
      ((actions.filter matchToRole).getLast?).bind (fun b => b.selector) ∧
    (extractEssentialSelectors actions).swapButton =
      ((actions.filter matchSwapRole).getLast?).bind (fun b => b.selector) ∧
    (extractEssentialSelectors actions).approveButton =
      ((actions.filter matchApproveRole).getLast?).bind
        (fun b => b.selector) := by
  refine ⟨?_, ?_, ?_, ?_, ?_⟩
  · rw [extractEssentialSelectors, foldl_selStep_amountInput]
  · rw [extractEssentialSelectors, foldl_selStep_fromTokenButton]
    cases (actions.filter matchFromRole).getLast? <;> rfl
  · rw [extractEssentialSelectors, foldl_selStep_toTokenButton]
    cases (actions.filter matchToRole).getLast? <;> rfl
  · rw [extractEssentialSelectors, foldl_selStep_swapButton]
    cases (actions.filter matchSwapRole).getLast? <;> rfl
  · rw [extractEssentialSelectors, foldl_selStep_approveButton]
    cases (actions.filter matchApproveRole).getLast? <;> rfl

/-! ## C1 — ordering of the merged action log at session stop -/

/-- C1 counterexample: a navigate action buffered live at relative
t=5000 precedes the drained frame click at relative t=100 in the final
actions array, so the array is not sorted non-decreasing by
timestamp. -/
theorem C1_counterexample :
    (stopRecordingActions [exC1nav] [[exC1raw]] 0).map
        (fun a => a.timestamp) = [5000, 100] ∧
    ¬ List.Pairwise (fun a b : RecordedAction => a.timestamp ≤ b.timestamp)
        (stopRecordingActions [exC1nav] [[exC1raw]] 0) := by
  decide

/-- C1 (amended): at stop time the orchestrator's own buffer (the
navigate actions, already session-relative) is kept as a prefix, and
the drained frame-buffer actions are appended after it, sorted
non-decreasing by timestamp among themselves, each timestamp rewritten
relative to session start (the whole array is therefore sorted only
when the orchestrator buffer is empty or happens to fit below the
drained suffix). -/
theorem C1_amended_stop_merge (prev : List RecordedAction)
    (bufs : List (List RawAction)) (st : Int) :
    (stopRecordingActions prev bufs st).take prev.length = prev ∧
    List.Pairwise (fun a b : RecordedAction => a.timestamp ≤ b.timestamp)
      ((stopRecordingActions prev bufs st).drop prev.length) ∧
    List.Perm
      (((stopRecordingActions prev bufs st).drop prev.length).map
        (fun a => a.timestamp))
      (bufs.flatten.map (fun r => r.timestamp - st)) := by
  refine ⟨?_, ?_, ?_⟩
  · rw [stopRecordingActions, List.take_left]
  · rw [stopRecordingActions, List.drop_left, List.pairwise_map]
    have hs := List.sorted_insertionSort rawLE bufs.flatten
    exact hs.imp (fun hab => Int.sub_le_sub_right hab st)
  · rw [stopRecordingActions, List.drop_left, List.map_map]
    exact (List.perm_insertionSort rawLE bufs.flatten).map _

/-! ## C3 — deduplication semantics -/

/-- `Map.set` then `Map.get`: the set key reads back the new value and
every other key is unchanged. -/
theorem mapLookup_mapSet :
    ∀ (m : List (String × RecordedAction)) (k : String)
      (v : RecordedAction) (k2 : String),
    mapLookup (mapSet m k v) k2 = if k = k2 then some v else mapLookup m k2
  | [], k, v, k2 => by
    by_cases h : k = k2 <;> simp [mapSet, mapLookup, h]
  | p :: rest, k, v, k2 => by
    rw [mapSet]
    by_cases h3 : (p.1 == k) = true
    · rw [if_pos h3, beq_iff_eq] at *
      by_cases h : k = k2
      · simp [mapLookup, h3, h]
      · simp [mapLookup, h3, h]
    · rw [if_neg h3]
      rw [beq_iff_eq] at h3
      rw [mapLookup, mapLookup, mapLookup_mapSet rest k v k2]
      by_cases h : k = k2
      · subst h
        simp [h3]
      · simp [h]

/-- In a timestamp-sorted list the last element is an upper bound. -/
theorem pairwise_le_getLast :
    ∀ (F : List RecordedAction),
    List.Pairwise (fun x y => x.timestamp ≤ y.timestamp) F →
    ∀ ex, F.getLast? = some ex → ∀ b ∈ F, b.timestamp ≤ ex.timestamp
  | [], _, ex, h => by cases h
  | [x], _, ex, h => by
    intro b hb
    rw [List.getLast?_singleton] at h
    cases h
    rw [List.mem_singleton] at hb
    subst hb
    exact le_refl _
  | x :: y :: F, hp, ex, h => by
    rw [List.getLast?_cons_cons] at h
    intro b hb
    have hp2 := (List.pairwise_cons.mp hp).2
    have hrel := (List.pairwise_cons.mp hp).1
    cases hb with
    | head =>
      exact hrel ex (List.mem_of_getLast?_eq_some h)
    | tail _ hb2 =>
      exact pairwise_le_getLast (y :: F) hp2 ex h b hb2

/-- Extending the kept list with a freshly kept action keeps the map in
sync with "last kept record per key". -/
theorem hmap_extend (kept : List RecordedAction)
    (m : List (String × RecordedAction)) (a : RecordedAction)
    (hmap : ∀ k, mapLookup m k =
      (kept.filter (fun b => generateActionKey b == k)).getLast?) :
    ∀ k2, mapLookup (mapSet m (generateActionKey a) a) k2 =
      ((kept ++ [a]).filter (fun b => generateActionKey b == k2)).getLast? := by
  intro k2
  rw [mapLookup_mapSet, List.filter_append]
  by_cases h : generateActionKey a = k2
  · rw [if_pos h]
    have hfa : [a].filter (fun b => generateActionKey b == k2) = [a] := by
      simp [List.filter, beq_iff_eq, h]
    rw [hfa, List.getLast?_concat]
  · rw [if_neg h]
    have hbe : (generateActionKey a == k2) = false :=
      beq_eq_false_iff_ne.mpr h
    have hfa : [a].filter (fun b => generateActionKey b == k2) = [] := by
      simp [List.filter, hbe]
    rw [hfa, List.append_nil, hmap]

/-- The code's map-based deduplication agrees with the specification's
kept-list formulation on every timestamp-sorted input, given the map
invariant (the map holds the last kept record per key), the kept list
being sorted and below the remaining input. -/
theorem removeDups_eq_claimAux :
    ∀ (l kept : List RecordedAction) (m : List (String × RecordedAction)),
    (∀ k, mapLookup m k =
      (kept.filter (fun b => generateActionKey b == k)).getLast?) →
    List.Pairwise (fun x y => x.timestamp ≤ y.timestamp) kept →
    (∀ b ∈ kept, ∀ x ∈ l, b.timestamp ≤ x.timestamp) →
    List.Pairwise (fun x y => x.timestamp ≤ y.timestamp) l →
    (removeDupsAux l m).1 = dedupClaimAux l kept
  | [], _, _, _, _, _, _ => rfl
  | a :: rest, kept, m, hmap, hksort, horder, hlsort => by
    have hpl := List.pairwise_cons.mp hlsort
    have horder_a : ∀ b ∈ kept, b.timestamp ≤ a.timestamp :=
      fun b hb => horder b hb a (List.mem_cons_self a rest)
    have hrec : (removeDupsAux rest (mapSet m (generateActionKey a) a)).1 =
        dedupClaimAux rest (kept ++ [a]) :=
      removeDups_eq_claimAux rest (kept ++ [a]) _
        (hmap_extend kept m a hmap)
        (List.pairwise_append.mpr ⟨hksort, List.pairwise_singleton _ _,
          fun b hb y hy => by
            rw [List.mem_singleton] at hy
            subst hy
            exact horder_a b hb⟩)
        (fun b hb x hx => by
          rcases List.mem_append.mp hb with hb | hb
          · exact horder b hb x (List.mem_cons_of_mem a hx)
          · rw [List.mem_singleton] at hb
            subst hb
            exact hpl.1 x hx)
        hpl.2
    simp only [removeDupsAux, dedupClaimAux]
    cases hF : (kept.filter
        (fun b => generateActionKey b == generateActionKey a)).getLast? with
    | none =>
      have hFnil : kept.filter
          (fun b => generateActionKey b == generateActionKey a) = [] :=
        List.getLast?_eq_none_iff.mp hF
      have hany : kept.any (fun b =>
          generateActionKey b == generateActionKey a &&
          decide (b.timestamp ≤ a.timestamp) &&
          decide (a.timestamp - b.timestamp ≤ duplicateThreshold)) = false := by
        rw [← Bool.not_eq_true, List.any_eq_true]
        rintro ⟨b, hb, hcond⟩
        simp only [Bool.and_eq_true] at hcond
        have hbf : b ∈ kept.filter
            (fun b => generateActionKey b == generateActionKey a) :=
          List.mem_filter.mpr ⟨hb, hcond.1.1⟩
        rw [hFnil] at hbf
        cases hbf
      rw [hmap (generateActionKey a), hF, hany]
      dsimp only
      rw [if_neg Bool.false_ne_true]
      rw [hrec]
    | some ex =>
      have hexmem := List.mem_of_getLast?_eq_some hF
      have hexkept : ex ∈ kept := List.mem_of_mem_filter hexmem
      have hexkey : (generateActionKey ex == generateActionKey a) = true :=
        (List.mem_filter.mp hexmem).2
      have hexle : ex.timestamp ≤ a.timestamp := horder_a ex hexkept
      have hmax : ∀ b ∈ kept.filter
          (fun b => generateActionKey b == generateActionKey a),
          b.timestamp ≤ ex.timestamp :=
        pairwise_le_getLast _ (hksort.filter _) ex hF
      rw [hmap (generateActionKey a), hF]
      dsimp only
      by_cases hgt : a.timestamp - ex.timestamp > duplicateThreshold
      · have hany : kept.any (fun b =>
            generateActionKey b == generateActionKey a &&
            decide (b.timestamp ≤ a.timestamp) &&
            decide (a.timestamp - b.timestamp ≤ duplicateThreshold)) = false := by
          rw [← Bool.not_eq_true, List.any_eq_true]
          rintro ⟨b, hb, hcond⟩
          simp only [Bool.and_eq_true, decide_eq_true_eq] at hcond
          obtain ⟨⟨hkeyb, _⟩, hwin⟩ := hcond
          have hbf : b ∈ kept.filter
              (fun b => generateActionKey b == generateActionKey a) :=
            List.mem_filter.mpr ⟨hb, hkeyb⟩
          have hb_ex := hmax b hbf
          rw [duplicateThreshold] at hgt hwin
          omega
        rw [if_pos hgt, hany]
        dsimp only
        rw [if_neg Bool.false_ne_true]
        rw [hrec]
      · have hle : a.timestamp - ex.timestamp ≤ duplicateThreshold :=
          not_lt.mp hgt
        have hany : kept.any (fun b =>
            generateActionKey b == generateActionKey a &&
            decide (b.timestamp ≤ a.timestamp) &&
            decide (a.timestamp - b.timestamp ≤ duplicateThreshold)) = true :=
          List.any_eq_true.mpr ⟨ex, hexkept, by
            simp only [Bool.and_eq_true, decide_eq_true_eq]
            exact ⟨⟨hexkey, hexle⟩, hle⟩⟩
        rw [if_neg hgt, hany]
        dsimp only
        rw [if_pos rfl]
        exact removeDups_eq_claimAux rest kept m hmap hksort
          (fun b hb x hx => horder b hb x (List.mem_cons_of_mem a hx))
          hpl.2

/-- C3 counterexample: in the unsorted log [click(t=5000), click(t=100)]
with equal keys, the t=100 record is dropped by the code although no
previously kept record lies within 1000 ms BEFORE it (the only kept
record is 4900 ms AFTER it); the spec-side predicate keeps both. -/
theorem C3_counterexample :
    (removeDuplicates [exC3a1, exC3a2]).1 = [exC3a1] ∧
    generateActionKey exC3a2 = generateActionKey exC3a1 ∧
    ¬(exC3a1.timestamp ≤ exC3a2.timestamp ∧
      exC3a2.timestamp - exC3a1.timestamp ≤ duplicateThreshold) ∧
    dedupClaim [exC3a1, exC3a2] = [exC3a1, exC3a2] := by
  decide

/-- C3 (amended): on every timestamp-sorted input the claim holds as
stated — deduplication keeps an action exactly when no previously kept
action with the same key lies within 1000 ms before it (the first of
each burst is kept and becomes the new reference point); on unsorted
input the code instead drops an action whenever the last kept action
with its key is newer than the action's timestamp minus 1000 ms, even
when that kept action lies in the future. -/
theorem C3_amended_dedup (l : List RecordedAction)
    (h : List.Pairwise (fun x y => x.timestamp ≤ y.timestamp) l) :
    (removeDuplicates l).1 = dedupClaim l :=
  removeDups_eq_claimAux l [] [] (fun _ => rfl) List.Pairwise.nil
    (fun b hb => by cases hb) h

/-- C3 witness: the amended theorem applied to a concrete sorted log
with two bursts (t=0 and t=500 share a burst; t=1600 starts a new
one). -/
theorem C3_amended_dedup_witness :
    List.Pairwise (fun x y : RecordedAction => x.timestamp ≤ y.timestamp)
      [exC3w1, exC3w2, exC3w3] ∧
    (removeDuplicates [exC3w1, exC3w2, exC3w3]).1 =
      dedupClaim [exC3w1, exC3w2, exC3w3] ∧
    (removeDuplicates [exC3w1, exC3w2, exC3w3]).1 = [exC3w1, exC3w3] :=
  ⟨by decide, C3_amended_dedup _ (by decide), by decide⟩

/-! ## URL lemmas shared by C8 and C10 -/

/-- String concatenation concatenates the character lists. -/
theorem data_append (s t : String) : (s ++ t).data = s.data ++ t.data := rfl

/-- `takeWhile` runs past a block of characters that all satisfy the
predicate. -/
theorem takeWhile_append_of_all {p : Char → Bool} :
    ∀ (l1 l2 : List Char), (∀ c ∈ l1, p c = true) →
    (l1 ++ l2).takeWhile p = l1 ++ l2.takeWhile p
  | [], l2, _ => rfl
  | c :: l1, l2, h => by
    rw [List.cons_append, List.takeWhile_cons,
      h c (List.mem_cons_self c l1), if_pos rfl,
      takeWhile_append_of_all l1 l2
        (fun d hd => h d (List.mem_cons_of_mem c hd)),
      List.cons_append]

/-- `takeWhile` keeps a list whose characters all satisfy the
predicate. -/
theorem takeWhile_eq_self_of_all {p : Char → Bool} (l : List Char)
    (h : ∀ c ∈ l, p c = true) : l.takeWhile p = l := by
  have h2 := takeWhile_append_of_all l [] h
  simpa using h2

/-- Characters of the trailing-slash-stripped string come from the
original. -/
theorem mem_dropOneTrailingSlash {c : Char} {s : String}
    (h : c ∈ (dropOneTrailingSlash s).data) : c ∈ s.data := by
  unfold dropOneTrailingSlash at h
  split at h
  case _ rest heq =>
    have h1 : c ∈ rest := List.mem_reverse.mp h
    have h2 : c ∈ s.data.reverse := by
      rw [heq]
      exact List.mem_cons_of_mem _ h1
    exact List.mem_reverse.mp h2
  case _ => exact h

/-- Stripping the trailing slash of an explicit concatenation. -/
theorem dropOneTrailingSlash_concat (l : List Char) :
    dropOneTrailingSlash (String.mk (l ++ ['/'])) = String.mk l := by
  unfold dropOneTrailingSlash
  have hrev : (l ++ ['/']).reverse = '/' :: l.reverse := by
    rw [List.reverse_append]
    rfl
  rw [hrev]
  simp

/-- A list ending in its reversal's head. -/
theorem getLast?_of_reverse {l rest : List Char} {c : Char}
    (h : l.reverse = c :: rest) : l.getLast? = some c := by
  have : l = rest.reverse ++ [c] := by
    have := congrArg List.reverse h
    rw [List.reverse_reverse] at this
    rw [this]
    simp
  rw [this, List.getLast?_concat]

/-- A string not ending in '/' is unchanged by the trailing-slash
strip. -/
theorem dropOneTrailingSlash_of_no_slash {s : String}
    (h : s.data.getLast? ≠ some '/') : dropOneTrailingSlash s = s := by
  unfold dropOneTrailingSlash
  split
  case _ rest heq => exact absurd (getLast?_of_reverse heq) h
  case _ => rfl

/-- The two possible outcomes of the trailing-slash strip, at the level
of character lists. -/
theorem dropSlash_data_cases (l : List Char) :
    (dropOneTrailingSlash (String.mk l)).data = l ∨
    (l.getLast? = some '/' ∧
      (dropOneTrailingSlash (String.mk l)).data = l.dropLast) := by
  unfold dropOneTrailingSlash
  split
  case _ rest heq =>
    have heq2 : l.reverse = '/' :: rest := heq
    refine Or.inr ⟨getLast?_of_reverse heq2, ?_⟩
    have hl : l = rest.reverse ++ ['/'] := by
      have h3 := congrArg List.reverse heq2
      rw [List.reverse_reverse] at h3
      rw [h3]
      simp
    rw [hl]
    simp
  case _ => exact Or.inl rfl

/-- Inversion of a successful URL parse: the origin is the scheme,
"://", and a non-empty authority free of '/', '?', '#'; the pathname is
non-empty, starts with '/', and is free of '?' and '#'. -/
theorem parseURL_some_inv {u o pth q : String}
    (h : parseURL u = some (o, pth, q)) :
    ∃ (scheme : String) (authL : List Char),
      (scheme = "https" ∨ scheme = "http") ∧
      authL ≠ [] ∧
      (∀ c ∈ authL, (c == '/' || c == '?' || c == '#') = false) ∧
      o = scheme ++ "://" ++ String.mk authL ∧
      pth.data ≠ [] ∧ pth.data.head? = some '/' ∧
      (∀ c ∈ pth.data, (c == '?' || c == '#') = false) := by
  rw [parseURL] at h
  dsimp only at h
  split at h
  · exact Option.noConfusion h
  · rename_i scheme rest heq
    have hscheme : scheme = "https" ∨ scheme = "http" := by
      split at heq
      · simp only [Option.some.injEq, Prod.mk.injEq] at heq
        exact Or.inl heq.1.symm
      · split at heq
        · simp only [Option.some.injEq, Prod.mk.injEq] at heq
          exact Or.inr heq.1.symm
        · exact Option.noConfusion heq
    split at h
    · exact Option.noConfusion h
    · rename_i hne
      simp only [Option.some.injEq, Prod.mk.injEq] at h
      obtain ⟨ho, hpth, _⟩ := h
      have hpd : pth.data = ['/'] ∨
          ∃ t : List Char, pth.data =
            '/' :: t.takeWhile (fun c2 => !(c2 == '?' || c2 == '#')) := by
        rw [← hpth]
        split
        · exact Or.inl rfl
        · rename_i c t heqA
          by_cases hc : (c == '/') = true
          · rw [if_pos hc]
            rw [beq_iff_eq] at hc
            subst hc
            rw [heqA, List.takeWhile_cons]
            refine Or.inr ⟨t, ?_⟩
            simp
          · rw [if_neg hc]
            exact Or.inl rfl
      refine ⟨scheme, _, hscheme,
        (fun hnil => by rw [hnil] at hne; exact hne rfl),
        (fun c hc => by simpa using List.mem_takeWhile_imp hc),
        ho.symm, ?_, ?_, ?_⟩
      · rcases hpd with hpd | ⟨t, hpd⟩ <;> rw [hpd] <;> simp
      · rcases hpd with hpd | ⟨t, hpd⟩ <;> rw [hpd] <;> simp
      · intro c hc
        rcases hpd with hpd | ⟨t, hpd⟩
        · rw [hpd, List.mem_singleton] at hc
          subst hc
          decide
        · rw [hpd] at hc
          rcases List.mem_cons.mp hc with rfl | hc2
          · decide
          · simpa using List.mem_takeWhile_imp hc2

/-- C10: normalizeUrl is total. When the URL constructor accepts the
input, the result is origin + pathname with one trailing slash removed;
when it throws, the result is the input's portion before the first '?'
with one trailing slash removed; in both cases the query is gone — the
result never contains '?'. -/
theorem C10_normalizeUrl_total (u : String) :
    (∀ o pth q, parseURL u = some (o, pth, q) →
      normalizeUrl u = dropOneTrailingSlash (o ++ pth)) ∧
    (parseURL u = none →
      normalizeUrl u = dropOneTrailingSlash (beforeFirstQuery u)) ∧
    '?' ∉ (normalizeUrl u).data := by
  refine ⟨?_, ?_, ?_⟩
  · intro o pth q h
    rw [normalizeUrl, h]
    rfl
  · intro h
    rw [normalizeUrl, h]
  · cases hp : parseURL u with
    | none =>
      rw [normalizeUrl, hp]
      intro hmem
      have h1 := mem_dropOneTrailingSlash hmem
      have h2 := List.mem_takeWhile_imp h1
      simp at h2
    | some parsed =>
      obtain ⟨o, pth, q⟩ := parsed
      rw [normalizeUrl, hp]
      intro hmem
      have h1 := mem_dropOneTrailingSlash hmem
      rw [originPathname, data_append] at h1
      obtain ⟨scheme, authL, hs, _, hstop, ho, _, _, hp2⟩ :=
        parseURL_some_inv hp
      rcases List.mem_append.mp h1 with h1 | h1
      · rw [ho, data_append, data_append] at h1
        rcases List.mem_append.mp h1 with h1 | h1
        · rcases List.mem_append.mp h1 with h1 | h1
          · rcases hs with hs | hs <;> (subst hs; simp at h1)
          · simp at h1
        · have := hstop _ h1
          simp at this
      · have := hp2 _ h1
        simp at this

/-- C10 witness: the parse-branch characterization at the quote URL and
the throw-branch characterization at a scheme-less input. -/
theorem C10_normalizeUrl_total_witness :
    parseURL "https://x/api/quote?x=1" =
      some ("https://x", "/api/quote", "x=1") ∧
    normalizeUrl "https://x/api/quote?x=1" =
      dropOneTrailingSlash ("https://x" ++ "/api/quote") ∧
    parseURL "a//" = none ∧
    normalizeUrl "a//" = dropOneTrailingSlash (beforeFirstQuery "a//") :=
  ⟨by decide,
   (C10_normalizeUrl_total "https://x/api/quote?x=1").1 "https://x"
     "/api/quote" "x=1" (by decide),
   by decide,
   (C10_normalizeUrl_total "a//").2.1 (by decide)⟩

/-! ## C8 — idempotence of normalizeUrl -/

/-- Two strings are equal when their character lists are. -/
theorem string_ext {s t : String} (h : s.data = t.data) : s = t :=
  congrArg String.mk h

/-- Re-parsing a canonical origin-plus-path string succeeds and returns
its components: the scheme check passes, the authority is read back
whole, the pathname is the path part (or "/" when it is empty) and the
query is empty. -/
theorem parseURL_build (scheme : String)
    (hs : scheme = "https" ∨ scheme = "http")
    (authL : List Char) (hne : authL ≠ [])
    (hstop : ∀ c ∈ authL, (c == '/' || c == '?' || c == '#') = false)
    (pdL : List Char)
    (hpd : pdL = [] ∨ pdL.head? = some '/')
    (hnq : ∀ c ∈ pdL, (c == '?' || c == '#') = false) :
    parseURL (scheme ++ "://" ++ String.mk authL ++ String.mk pdL) =
      some (scheme ++ "://" ++ String.mk authL,
            if pdL = [] then "/" else String.mk pdL, "") := by
  have hstop' : ∀ c ∈ authL,
      (fun c => !(c == '/' || c == '?' || c == '#')) c = true := by
    intro c hc
    simp [hstop c hc]
  have htake : (authL ++ pdL).takeWhile
      (fun c => !(c == '/' || c == '?' || c == '#')) = authL := by
    rw [takeWhile_append_of_all authL pdL hstop']
    rcases hpd with hpd | hpd
    · rw [hpd]
      simp
    · cases pdL with
      | nil => simp
      | cons c t =>
        have hc : c = '/' := by simpa using hpd
        subst hc
        rw [List.takeWhile_cons]
        simp
  have hie : authL.isEmpty = false := by
    cases authL with
    | nil => exact absurd rfl hne
    | cons c t => rfl
  have hq2 : pdL.takeWhile (fun c2 => !(c2 == '?' || c2 == '#')) = pdL :=
    takeWhile_eq_self_of_all pdL (fun c hc => by simp [hnq c hc])
  rcases hs with hs | hs <;> subst hs
  · -- https
    have hcheck : (lowerStr (strTake
        ("https" ++ "://" ++ String.mk authL ++ String.mk pdL) 8) ==
        "https://") = true := rfl
    rw [parseURL]
    dsimp only
    rw [if_pos hcheck]
    dsimp only
    have hdata : ("https" ++ "://" ++ String.mk authL ++
        String.mk pdL).data.drop 8 = authL ++ pdL := rfl
    rw [hdata, htake, hie]
    rw [if_neg Bool.false_ne_true]
    rw [List.drop_left, hq2, List.drop_length]
    cases pdL with
    | nil => rfl
    | cons c t =>
      have hc : c = '/' := by
        rcases hpd with h0 | h0
        · exact absurd h0 (by simp)
        · simpa using h0
      subst hc
      rw [if_neg (by simp : ¬('/' :: t = []))]
      rfl
  · -- http
    obtain ⟨a, as, rfl⟩ : ∃ a as, authL = a :: as := by
      cases authL with
      | nil => exact absurd rfl hne
      | cons a as => exact ⟨a, as, rfl⟩
    have hc8 : (lowerStr (strTake
        ("http" ++ "://" ++ String.mk (a :: as) ++ String.mk pdL) 8) ==
        "https://") = false := by
      apply beq_eq_false_iff_ne.mpr
      intro heq
      have h2 : ('h' :: 't' :: 't' :: 'p' :: ':' :: '/' :: '/' ::
          [Char.toLower a]) = "https://".data := congrArg String.data heq
      have h3 : "https://".data =
          ['h', 't', 't', 'p', 's', ':', '/', '/'] := rfl
      rw [h3] at h2
      simp at h2
    have hcheck : (lowerStr (strTake
        ("http" ++ "://" ++ String.mk (a :: as) ++ String.mk pdL) 7) ==
        "http://") = true := rfl
    rw [parseURL]
    dsimp only
    rw [hc8]
    rw [if_neg Bool.false_ne_true, if_pos hcheck]
    dsimp only
    have hdata : ("http" ++ "://" ++ String.mk (a :: as) ++
        String.mk pdL).data.drop 7 = (a :: as) ++ pdL := rfl
    rw [hdata, htake, hie]
    rw [if_neg Bool.false_ne_true]
    rw [List.drop_left, hq2, List.drop_length]
    cases pdL with
    | nil => rfl
    | cons c t =>
      have hc : c = '/' := by
        rcases hpd with h0 | h0
        · exact absurd h0 (by simp)
        · simpa using h0
      subst hc
      rw [if_neg (by simp : ¬('/' :: t = []))]
      rfl

/-- Parsing fails when neither scheme check passes. -/
theorem parseURL_none_of_checks (s : String)
    (h8 : (lowerStr (strTake s 8) == "https://") = false)
    (h7 : (lowerStr (strTake s 7) == "http://") = false) :
    parseURL s = none := by
  rw [parseURL]
  dsimp only
  rw [h8, h7]
  rfl

/-- Parsing fails when the https check passes but the authority is
empty. -/
theorem parseURL_none_of_empty_auth8 (s : String)
    (h8 : (lowerStr (strTake s 8) == "https://") = true)
    (he : (s.data.drop 8).takeWhile
      (fun c => !(c == '/' || c == '?' || c == '#')) = []) :
    parseURL s = none := by
  rw [parseURL]
  dsimp only
  rw [if_pos h8]
  dsimp only
  rw [he]
  rfl

/-- Parsing fails when only the http check passes but the authority is
empty. -/
theorem parseURL_none_of_empty_auth7 (s : String)
    (h8 : (lowerStr (strTake s 8) == "https://") = false)
    (h7 : (lowerStr (strTake s 7) == "http://") = true)
    (he : (s.data.drop 7).takeWhile
      (fun c => !(c == '/' || c == '?' || c == '#')) = []) :
    parseURL s = none := by
  rw [parseURL]
  dsimp only
  rw [h8]
  rw [if_neg Bool.false_ne_true, if_pos h7]
  dsimp only
  rw [he]
  rfl

/-- The https check fails on strings of fewer than 8 characters. -/
theorem check8_false_of_short {s : String} (h : s.data.length < 8) :
    (lowerStr (strTake s 8) == "https://") = false := by
  apply beq_eq_false_iff_ne.mpr
  intro heq
  have hlen := congrArg (fun t => t.data.length) heq
  simp only [lowerStr, strTake, List.length_map, List.length_take] at hlen
  have h2 : ("https://").data.length = 8 := rfl
  rw [h2] at hlen
  omega

/-- The http check fails on strings of fewer than 7 characters. -/
theorem check7_false_of_short {s : String} (h : s.data.length < 7) :
    (lowerStr (strTake s 7) == "http://") = false := by
  apply beq_eq_false_iff_ne.mpr
  intro heq
  have hlen := congrArg (fun t => t.data.length) heq
  simp only [lowerStr, strTake, List.length_map, List.length_take] at hlen
  have h2 : ("http://").data.length = 7 := rfl
  rw [h2] at hlen
  omega

/-- A sufficiently long prefix shares its leading `take` with the full
string. -/
theorem strTake_eq_of_start {r u : String} (h : r.data <+: u.data)
    {n : Nat} (hn : n ≤ r.data.length) : strTake r n = strTake u n := by
  obtain ⟨t, ht⟩ := h
  rw [strTake, strTake, ← ht, List.take_append_of_le_length hn]

/-- When the https check passes, the http check fails (the two literals
differ at their fifth character). -/
theorem check7_false_of_check8 {u : String}
    (h8 : (lowerStr (strTake u 8) == "https://") = true) :
    (lowerStr (strTake u 7) == "http://") = false := by
  rw [beq_iff_eq] at h8
  apply beq_eq_false_iff_ne.mpr
  intro heq
  have hd8 : List.map Char.toLower (u.data.take 8) = "https://".data :=
    congrArg String.data h8
  have hd7 : List.map Char.toLower (u.data.take 7) = "http://".data :=
    congrArg String.data heq
  have h77 : u.data.take 7 = (u.data.take 8).take 7 := by
    rw [List.take_take]
    norm_num
  rw [h77, List.map_take, hd8] at hd7
  exact absurd hd7 (by decide)

/-- Inversion of a failed parse: either both scheme checks fail, or a
scheme check passes but the authority is empty. -/
theorem parseURL_none_inv {u : String} (h : parseURL u = none) :
    ((lowerStr (strTake u 8) == "https://") = false ∧
     (lowerStr (strTake u 7) == "http://") = false) ∨
    ((lowerStr (strTake u 8) == "https://") = true ∧
     (u.data.drop 8).takeWhile
       (fun c => !(c == '/' || c == '?' || c == '#')) = []) ∨
    ((lowerStr (strTake u 8) == "https://") = false ∧
     (lowerStr (strTake u 7) == "http://") = true ∧
     (u.data.drop 7).takeWhile
       (fun c => !(c == '/' || c == '?' || c == '#')) = []) := by
  rw [parseURL] at h
  dsimp only at h
  by_cases h8 : (lowerStr (strTake u 8) == "https://") = true
  · rw [if_pos h8] at h
    dsimp only at h
    refine Or.inr (Or.inl ⟨h8, ?_⟩)
    by_cases he : ((u.data.drop 8).takeWhile
        (fun c => !(c == '/' || c == '?' || c == '#'))).isEmpty = true
    · exact List.isEmpty_iff.mp he
    · rw [if_neg he] at h
      exact Option.noConfusion h
  · have h8f := Bool.of_not_eq_true h8
    rw [h8f, if_neg Bool.false_ne_true] at h
    by_cases h7 : (lowerStr (strTake u 7) == "http://") = true
    · rw [if_pos h7] at h
      dsimp only at h
      refine Or.inr (Or.inr ⟨h8f, h7, ?_⟩)
      by_cases he : ((u.data.drop 7).takeWhile
          (fun c => !(c == '/' || c == '?' || c == '#'))).isEmpty = true
      · exact List.isEmpty_iff.mp he
      · rw [if_neg he] at h
        exact Option.noConfusion h
    · exact Or.inl ⟨h8f, Bool.of_not_eq_true h7⟩

/-- Parse failure transfers to prefixes: if the URL constructor rejects
a string, it rejects every prefix of it. -/
theorem parseURL_none_of_start {u r : String}
    (hpre : r.data <+: u.data) (hu : parseURL u = none) :
    parseURL r = none := by
  rcases parseURL_none_inv hu with ⟨h8, h7⟩ | ⟨h8, he⟩ | ⟨h8, h7, he⟩
  · apply parseURL_none_of_checks
    · by_cases hl : 8 ≤ r.data.length
      · rw [strTake_eq_of_start hpre hl]
        exact h8
      · exact check8_false_of_short (by omega)
    · by_cases hl : 7 ≤ r.data.length
      · rw [strTake_eq_of_start hpre hl]
        exact h7
      · exact check7_false_of_short (by omega)
  · by_cases hl : 8 ≤ r.data.length
    · apply parseURL_none_of_empty_auth8
      · rw [strTake_eq_of_start hpre hl]
        exact h8
      · obtain ⟨t, ht⟩ := hpre
        cases hrd : r.data.drop 8 with
        | nil => rfl
        | cons c t2 =>
          have hud : u.data.drop 8 = c :: (t2 ++ t) := by
            rw [← ht, List.drop_append_of_le_length hl, hrd]
            rfl
          rw [hud, List.takeWhile_cons] at he
          rw [List.takeWhile_cons]
          by_cases hc : (!(c == '/' || c == '?' || c == '#')) = true
          · rw [if_pos hc] at he
            exact absurd he (by simp)
          · rw [if_neg hc]
    · apply parseURL_none_of_checks
      · exact check8_false_of_short (by omega)
      · by_cases hl7 : 7 ≤ r.data.length
        · rw [strTake_eq_of_start hpre hl7]
          exact check7_false_of_check8 h8
        · exact check7_false_of_short (by omega)
  · by_cases hl : 7 ≤ r.data.length
    · apply parseURL_none_of_empty_auth7
      · by_cases hl8 : 8 ≤ r.data.length
        · rw [strTake_eq_of_start hpre hl8]
          exact h8
        · exact check8_false_of_short (by omega)
      · rw [strTake_eq_of_start hpre hl]
        exact h7
      · obtain ⟨t, ht⟩ := hpre
        cases hrd : r.data.drop 7 with
        | nil => rfl
        | cons c t2 =>
          have hud : u.data.drop 7 = c :: (t2 ++ t) := by
            rw [← ht, List.drop_append_of_le_length hl, hrd]
            rfl
          rw [hud, List.takeWhile_cons] at he
          rw [List.takeWhile_cons]
          by_cases hc : (!(c == '/' || c == '?' || c == '#')) = true
          · rw [if_pos hc] at he
            exact absurd he (by simp)
          · rw [if_neg hc]
    · apply parseURL_none_of_checks
      · exact check8_false_of_short (by omega)
      · exact check7_false_of_short (by omega)

/-- C8 counterexample: normalizeUrl is not idempotent. The regex
`/\/$/` strips only ONE trailing slash, so on "a//" the first
application yields "a/" and the second strips further to "a". -/
theorem C8_counterexample :
    normalizeUrl "a//" = "a/" ∧
    normalizeUrl (normalizeUrl "a//") = "a" ∧
    normalizeUrl (normalizeUrl "a//") ≠ normalizeUrl "a//" := by
  decide

/-- C8 (amended): on every input the URL constructor accepts as an
absolute http(s) URL — the fragment the embedding models — whose
normalized result does not end in '/', normalizeUrl is idempotent. The
guarantee stops there: the single-slash regex makes any '/'-terminated
result lose one more slash on a second application (normalizeUrl "a//"
is "a/" but normalizeUrl "a/" is "a"), and a non-http(s) scheme input
normalizes through the constructor's "null" origin to a string that can
reparse under a different scheme, so idempotence fails there as well. -/
theorem C8_amended_idempotent (u : String)
    (hp : (parseURL u).isSome = true)
    (h : (normalizeUrl u).data.getLast? ≠ some '/') :
    normalizeUrl (normalizeUrl u) = normalizeUrl u := by
  obtain ⟨⟨o, pth, q⟩, hpe⟩ := Option.isSome_iff_exists.mp hp
  · obtain ⟨scheme, authL, hs, hne, hstop, ho, hpne, hphead, hpchars⟩ :=
      parseURL_some_inv hpe
    have hr : normalizeUrl u = dropOneTrailingSlash (o ++ pth) := by
      rw [normalizeUrl, hpe]
      rfl
    have hsplit : (normalizeUrl u).data = o.data ++ pth.data ∨
        (normalizeUrl u).data = o.data ++ pth.data.dropLast := by
      rw [hr]
      rcases dropSlash_data_cases ((o ++ pth).data) with h1 | ⟨_, h1⟩
      · left
        rw [show (dropOneTrailingSlash (o ++ pth)).data =
            (dropOneTrailingSlash (String.mk ((o ++ pth).data))).data
            from rfl, h1, data_append]
      · right
        rw [show (dropOneTrailingSlash (o ++ pth)).data =
            (dropOneTrailingSlash (String.mk ((o ++ pth).data))).data
            from rfl, h1, data_append,
          List.dropLast_append_of_ne_nil _ hpne]
    obtain ⟨pd2, hrd, hpd2, hnq2⟩ : ∃ pd2,
        (normalizeUrl u).data = o.data ++ pd2 ∧
        (pd2 = [] ∨ pd2.head? = some '/') ∧
        (∀ c ∈ pd2, (c == '?' || c == '#') = false) := by
      rcases hsplit with h1 | h1
      · exact ⟨pth.data, h1, Or.inr hphead, hpchars⟩
      · refine ⟨pth.data.dropLast, h1, ?_,
          fun c hc => hpchars c ((List.dropLast_prefix _).subset hc)⟩
        cases hpde : pth.data with
        | nil => exact absurd hpde hpne
        | cons c t =>
          have hc : c = '/' := by
            rw [hpde] at hphead
            simpa using hphead
          subst hc
          cases t with
          | nil => exact Or.inl rfl
          | cons c2 t2 => exact Or.inr rfl
    have hrstr : normalizeUrl u =
        scheme ++ "://" ++ String.mk authL ++ String.mk pd2 := by
      apply string_ext
      rw [hrd, ho]
      rw [data_append, data_append, data_append, data_append]
      simp [List.append_assoc]
    rw [hrstr] at h ⊢
    rw [normalizeUrl, parseURL_build scheme hs authL hne hstop pd2 hpd2 hnq2]
    rcases hpd2 with hnil | hhead
    · subst hnil
      rw [if_pos rfl]
      have ho2 : scheme ++ "://" ++ String.mk authL ++ String.mk [] =
          scheme ++ "://" ++ String.mk authL := by
        apply string_ext
        rw [data_append]
        simp
      rw [ho2]
      show dropOneTrailingSlash (String.mk
        ((scheme ++ "://" ++ String.mk authL).data ++ ['/'])) = _
      rw [dropOneTrailingSlash_concat]
    · have hne2 : pd2 ≠ [] := by
        intro h0
        rw [h0] at hhead
        exact Option.noConfusion hhead
      rw [if_neg hne2]
      exact dropOneTrailingSlash_of_no_slash h

/-- C8 witness: the amended idempotence applied to an absolute https
URL the constructor accepts and whose normalization has no trailing
slash. -/
theorem C8_amended_idempotent_witness :
    (parseURL "https://x/a").isSome = true ∧
    (normalizeUrl "https://x/a").data.getLast? ≠ some '/' ∧
    normalizeUrl (normalizeUrl "https://x/a") = normalizeUrl "https://x/a" :=
  ⟨by decide, by decide, C8_amended_idempotent "https://x/a" (by decide) (by decide)⟩

end APIGrabber
